import Mathlib

/-!
Verification of the chat/RAG backend (`backend/main.py`, `backend/rag/rag_service.py`).

The Python code is shallowly embedded: dictionaries become association lists,
`str` values become `String` (sequences of code points), Python string slicing
and stripping are re-implemented on `List Char`, and the stateful WebSocket
handler becomes a pure function from a store and an inbound frame to a new
store plus the list of emitted frames, persisted messages, and RAG queries.
The embedding models the in-memory configuration of the backend (`db = None`,
Firebase unavailable), which is the code path fully contained in the source;
the durable (Firestore) query semantics used by `get_messages` are modelled
separately and marked as such.
-/

/-! ## Python string primitives -/

/-- The whitespace characters removed by Python `str.strip()` (ASCII subset;
`strip` also removes some rare Unicode spaces, which never occur here). -/
def isPyWhitespace (c : Char) : Bool :=
  c == ' ' || c == '\t' || c == '\n' || c == '\r' || c == '\x0b' || c == '\x0c'

/-- Python `str.strip()` on a list of code points. -/
def pyStripList (cs : List Char) : List Char :=
  ((cs.dropWhile isPyWhitespace).reverse.dropWhile isPyWhitespace).reverse

/-- Python `str.strip()`. -/
def pyStrip (s : String) : String := ⟨pyStripList s.data⟩

/-- Python slicing `s[n:]` (by code points). -/
def pyDrop (n : Nat) (s : String) : String := ⟨s.data.drop n⟩

/-- Python slicing `s[:n]` (by code points). -/
def pyTake (n : Nat) (s : String) : String := ⟨s.data.take n⟩

/-- Python `len(s)` (code points). -/
def pyLen (s : String) : Nat := s.data.length

/-- Python `s.startswith(p)`. -/
def pyStartsWith (s p : String) : Bool := p.data.isPrefixOf s.data

/-- Python `s.endswith(p)`. -/
def pyEndsWith (s p : String) : Bool := p.data.isSuffixOf s.data

/-- Python substring test `needle in hay`. -/
def strContainsSub (hay needle : String) : Bool :=
  (List.range (hay.data.length + 1)).any (fun i => needle.data.isPrefixOf (hay.data.drop i))

/-- Python `sep.join(parts)`. -/
def joinWith (sep : String) : List String → String
  | [] => ""
  | [x] => x
  | x :: y :: xs => x ++ sep ++ joinWith sep (y :: xs)

/-! ## Association lists as Python dictionaries

A Python `dict` is embedded as an association list whose keys are unique and
appear in insertion order.  Assignment replaces the value of an existing key
in place and appends a fresh key at the end, exactly as `d[k] = v` does. -/

/-- Python `d.get(k)`. -/
def dictFind {α : Type} : List (String × α) → String → Option α
  | [], _ => none
  | (k0, v0) :: rest, k => if k0 == k then some v0 else dictFind rest k

/-- Python `d[k] = v`. -/
def dictSet {α : Type} : List (String × α) → String → α → List (String × α)
  | [], k, v => [(k, v)]
  | (k0, v0) :: rest, k, v =>
      if k0 == k then (k, v) :: rest else (k0, v0) :: dictSet rest k v

/-- Python `d[k].update(...)` / in-place mutation of the stored value
(no-op when the key is absent, matching `update_conversation`). -/
def dictUpdate {α : Type} : List (String × α) → String → (α → α) → List (String × α)
  | [], _, _ => []
  | (k0, v0) :: rest, k, f =>
      if k0 == k then (k0, f v0) :: rest else (k0, v0) :: dictUpdate rest k f

/-! ## Data model (`main.py` Pydantic models / message dicts) -/

/-- A chat message as persisted by `main.py` (the dict built in the
`send_message` / `send_image` handlers). -/
structure Message where
  id : String
  text : String
  userId : String
  userName : String
  conversationId : String
  createdAt : String
  isBot : Bool
  msgType : String
  imageUrl : Option String
  clientMessageId : Option String
deriving DecidableEq, Repr

/-- A conversation (`main.py`, `Conversation`). -/
structure Conversation where
  id : String
  name : Option String
  convType : String
  participants : List String
  createdAt : String
  hasBot : Bool
deriving DecidableEq, Repr

/-- The in-memory storage of `main.py`: module-level dicts `conversations`
and `messages_store` (the `db = None` configuration). -/
structure Store where
  conversations : List (String × Conversation)
  messagesStore : List (String × List Message)
deriving DecidableEq, Repr

/-- The empty in-memory store. -/
def emptyStore : Store := ⟨[], []⟩

/-- `save_message` (`main.py` lines 182-192), in-memory branch: append the
message to `messages_store[conversationId]`, creating the list if absent. -/
def saveMessage (st : Store) (m : Message) : Store :=
  let old := (dictFind st.messagesStore m.conversationId).getD []
  { st with messagesStore := dictSet st.messagesStore m.conversationId (old ++ [m]) }

/-- `get_messages` (`main.py` lines 195-205), in-memory branch:
`messages_store.get(conversation_id, [])`.  Note that the `limit` parameter
and the `createdAt` ordering are NOT applied on this branch. -/
def getMessagesInMem (st : Store) (conversationId : String) (limit : Nat) : List Message :=
  let _ := limit
  (dictFind st.messagesStore conversationId).getD []

/-- A stable insertion sort, `stableSortBy lt`: `y` is kept before `x`
exactly when `lt y x`; ties keep their original order.  This is the
semantics of Python's stable `list.sort`. -/
def stableInsertBy {α : Type} (lt : α → α → Bool) (x : α) : List α → List α
  | [] => [x]
  | y :: ys => if lt y x then y :: stableInsertBy lt x ys else x :: y :: ys

/-- Stable sort (see `stableInsertBy`). -/
def stableSortBy {α : Type} (lt : α → α → Bool) (xs : List α) : List α :=
  xs.foldr (stableInsertBy lt) []

/-- Stable ascending sort by an integer key (Python `xs.sort(key=k)`). -/
def sortByKeyAsc {α : Type} (k : α → Int) (xs : List α) : List α :=
  stableSortBy (fun a b => decide (k a < k b)) xs

/-- Stable descending sort by an integer key
(Python `xs.sort(key=k, reverse=True)`). -/
def sortByKeyDesc {α : Type} (k : α → Int) (xs : List α) : List α :=
  stableSortBy (fun a b => decide (k b < k a)) xs

/-- Lexicographic order on code-point lists (string comparison as Python and
the document store apply it to ASCII ISO-8601 timestamps). -/
def lexLt : List Char → List Char → Bool
  | [], [] => false
  | [], _ :: _ => true
  | _ :: _, [] => false
  | c :: cs, d :: ds =>
      if c.toNat < d.toNat then true
      else if d.toNat < c.toNat then false
      else lexLt cs ds

/-- String comparison `a < b` by code points. -/
def strLt (a b : String) : Bool := lexLt a.data b.data

/-- Stable descending sort by a string key (lexicographic, as Firestore
orders ISO-8601 timestamp strings). -/
def sortByStrKeyDesc {α : Type} (k : α → String) (xs : List α) : List α :=
  stableSortBy (fun a b => strLt (k b) (k a)) xs

/-- Modelled from the spec: the `get_messages` contract of §4.8 — messages of
the conversation ordered by `createdAt` descending, truncated to `limit`. -/
def specGetMessages (msgs : List Message) (limit : Nat) : List Message :=
  (sortByStrKeyDesc Message.createdAt msgs).take limit

/-- Modelled from the spec: the durable branch of `get_messages` delegates to
the document store's query engine (`where conversationId ==`,
`order_by createdAt descending`, `limit`), which is not part of the source
tree.  `allMsgs` is the full `messages` collection. -/
def durableGetMessages (allMsgs : List Message) (conversationId : String) (limit : Nat) :
    List Message :=
  ((sortByStrKeyDesc Message.createdAt
      (allMsgs.filter (fun m => m.conversationId == conversationId))).take limit)

/-- `save_conversation` (`main.py` lines 208-213), in-memory branch. -/
def saveConversation (st : Store) (c : Conversation) : Store :=
  { st with conversations := dictSet st.conversations c.id c }

/-- `get_conversation` (`main.py` lines 216-222), in-memory branch. -/
def getConversation (st : Store) (conversationId : String) : Option Conversation :=
  dictFind st.conversations conversationId

/-- `update_conversation(conversation_id, {"hasBot": b})`
(`main.py` lines 225-231), in-memory branch. -/
def updateConversationHasBot (st : Store) (conversationId : String) (b : Bool) : Store :=
  { st with conversations :=
      dictUpdate st.conversations conversationId (fun c => { c with hasBot := b }) }

/-- Python `set(xs) == set(ys)` for lists of strings. -/
def pySetEq (xs ys : List String) : Bool :=
  xs.all (fun a => ys.contains a) && ys.all (fun a => xs.contains a)

/-- `find_conversation_by_participants` (`main.py` lines 234-252), in-memory
branch: first conversation (in dict insertion order) of the given type whose
participant set equals the given one. -/
def findConversationByParticipants (st : Store) (participantIds : List String)
    (conversationType : String) : Option Conversation :=
  (st.conversations.map Prod.snd).find?
    (fun c => c.convType == conversationType && pySetEq c.participants participantIds)

/-- The new-conversation construction inside `create_conversation`
(`main.py` lines 1257-1268); `freshId` stands for the generated UUID.
The `group_created` broadcast (lines 1271-1278) touches neither the store nor
the returned conversation and is not modelled. -/
def mkNewConversation (st : Store) (freshId nowTs : String) (name : Option String)
    (conversationType : String) (participantIds : List String) : Store × Conversation :=
  let c : Conversation :=
    { id := freshId, name := name, convType := conversationType,
      participants := participantIds, createdAt := nowTs, hasBot := false }
  (saveConversation st c, c)

/-- `create_conversation` (`main.py` lines 1247-1280): for a one-to-one
request with exactly two participants, return an existing conversation with
the same participant set if there is one; otherwise create a new one. -/
def createConversation (st : Store) (freshId nowTs : String) (name : Option String)
    (conversationType : String) (participantIds : List String) : Store × Conversation :=
  if conversationType == "one_to_one" && participantIds.length == 2 then
    match findConversationByParticipants st participantIds "one_to_one" with
    | some c => (st, c)
    | none => mkNewConversation st freshId nowTs name conversationType participantIds
  else
    mkNewConversation st freshId nowTs name conversationType participantIds


/-! ## WebSocket session protocol handler (`main.py`, `websocket_endpoint`)

The handler is embedded as a pure function.  Its observable behaviour is the
updated store, the ordered list of frames it sends (`Event`s), the messages it
passes to `save_message`, and the query texts it feeds to the RAG
orchestrator (`ai_service.generate_response`).  UUIDs and timestamps are
parameters; the AI reply is a function parameter. -/

/-- Outbound WebSocket frames relevant to the handler (payload reduced to the
fields the claims are about). -/
inductive Frame where
  | error (msg : String)
  | botAdded (conversationId : String)
  | botRemoved (conversationId : String)
  | newMessage (m : Message)
  | messageSent (m : Message)
deriving DecidableEq, Repr

/-- A send performed by the handler: either `send_personal_message(target)` or
`broadcast_to_conversation(conversationId, exclude)`. -/
inductive Event where
  | personal (target : String) (f : Frame)
  | broadcast (conversationId : String) (exclude : Option String) (f : Frame)
deriving DecidableEq, Repr

/-- Result of processing one inbound frame: updated store, sends in order,
messages passed to `save_message`, and texts fed to the RAG orchestrator. -/
structure HandlerOutput where
  store : Store
  events : List Event
  persisted : List Message
  ragQueries : List String
deriving DecidableEq, Repr

/-- The tail of the `send_message` branch after the `/bot` command handling
(`main.py` lines 1609-1686): the `/chat` command check, message persistence,
fan-out, sender ack, and the bot reply when the conversation has the bot.
`evs` are the events already emitted by the `/bot` handling.  The Python
local `conversation` aliases the stored dict, so the `/chat` check reads the
current store. -/
def afterCommands (st : Store) (evs : List Event) (cid userId userName mtext : String)
    (clientMsgId : Option String) (msgId botMsgId nowTs : String)
    (aiReply : String → List Message → String) : HandlerOutput :=
  if mtext == "/chat" then
    if ((getConversation st cid).map Conversation.hasBot).getD false then
      ⟨updateConversationHasBot st cid false,
       evs ++ [Event.broadcast cid none (Frame.botRemoved cid)], [], []⟩
    else ⟨st, evs, [], []⟩
  else
    let m : Message :=
      { id := msgId, text := mtext, userId := userId, userName := userName,
        conversationId := cid, createdAt := nowTs, isBot := false, msgType := "text",
        imageUrl := none, clientMessageId := clientMsgId }
    let st2 := saveMessage st m
    let evs2 := evs ++ [Event.broadcast cid (some userId) (Frame.newMessage m),
                        Event.personal userId (Frame.messageSent m)]
    match getConversation st2 cid with
    | some c2 =>
      if c2.hasBot then
        let recent := getMessagesInMem st2 cid 10
        let bm : Message :=
          { id := botMsgId, text := aiReply mtext recent, userId := "bot",
            userName := "AI Bot", conversationId := cid, createdAt := nowTs,
            isBot := true, msgType := "text", imageUrl := none, clientMessageId := none }
        ⟨saveMessage st2 bm,
         evs2 ++ [Event.broadcast cid none (Frame.newMessage bm)], [m, bm], [mtext]⟩
      else ⟨st2, evs2, [m], []⟩
    | none => ⟨st2, evs2, [m], []⟩

/-- The `send_message` branch of `websocket_endpoint` (`main.py` lines
1559-1686), in-memory configuration.  An unknown conversation id and empty
text are silently skipped (`continue`); a non-participant sender gets an
`error` frame; a leading `/bot` enables the bot and turns the rest of the
text into the bot query. -/
def handleSendMessage (st : Store) (userId userName : String) (text0 : String)
    (convIdOpt : Option String) (clientMsgId : Option String)
    (msgId botMsgId nowTs : String)
    (aiReply : String → List Message → String) : HandlerOutput :=
  let messageText := pyStrip text0
  match convIdOpt with
  | none => ⟨st, [], [], []⟩
  | some cid =>
    if messageText == "" || cid == "" then ⟨st, [], [], []⟩
    else
      match getConversation st cid with
      | none => ⟨st, [], [], []⟩
      | some conv =>
        if !(conv.participants.contains userId) then
          ⟨st, [Event.personal userId (Frame.error
            "You are not a member of this conversation. Please join the group first.")],
           [], []⟩
        else
          if pyStartsWith messageText "/bot" then
            let q := pyStrip (pyDrop 4 messageText)
            let st1 := if !conv.hasBot then updateConversationHasBot st cid true else st
            let evs1 := if !conv.hasBot
                        then [Event.broadcast cid none (Frame.botAdded cid)] else []
            if q == "" then ⟨st1, evs1, [], []⟩
            else afterCommands st1 evs1 cid userId userName q clientMsgId msgId botMsgId
                   nowTs aiReply
          else
            afterCommands st [] cid userId userName messageText clientMsgId msgId botMsgId
              nowTs aiReply

/-- The tail of the `send_image` branch once the final image URL is known
(`main.py` lines 1777-1843): persist a `type="image"` message, fan out, ack,
and run the bot's image analysis when the conversation has the bot. -/
def finishImage (st : Store) (cid userId userName finalUrl userMessage : String)
    (clientMsgId : Option String) (msgId botMsgId nowTs : String)
    (aiImageReply : String → List Message → String) : HandlerOutput :=
  let m : Message :=
    { id := msgId, text := if userMessage == "" then "📷 Image" else userMessage,
      userId := userId, userName := userName, conversationId := cid, createdAt := nowTs,
      isBot := false, msgType := "image", imageUrl := some finalUrl,
      clientMessageId := clientMsgId }
  let st2 := saveMessage st m
  let evs2 := [Event.broadcast cid (some userId) (Frame.newMessage m),
               Event.personal userId (Frame.messageSent m)]
  match getConversation st2 cid with
  | some c2 =>
    if c2.hasBot then
      let recent := getMessagesInMem st2 cid 10
      let bm : Message :=
        { id := botMsgId, text := aiImageReply userMessage recent, userId := "bot",
          userName := "AI Bot", conversationId := cid, createdAt := nowTs,
          isBot := true, msgType := "text", imageUrl := none, clientMessageId := none }
      ⟨saveMessage st2 bm,
       evs2 ++ [Event.broadcast cid none (Frame.newMessage bm)], [m, bm], []⟩
    else ⟨st2, evs2, [m], []⟩
  | none => ⟨st2, evs2, [m], []⟩

/-- The `send_image` branch of `websocket_endpoint` (`main.py` lines
1688-1850), in-memory configuration (Firebase Storage unavailable, so a
base64 payload falls back to a `data:` URL).  `b64ok` abstracts whether
`base64.b64decode` succeeds on the payload.  As in `send_message`, an unknown
conversation id is silently skipped. -/
def handleSendImage (st : Store) (userId userName : String) (convIdOpt : Option String)
    (imageUrl imageBase64 : Option String) (imageMimeType : String) (text0 : String)
    (clientMsgId : Option String) (msgId botMsgId nowTs : String)
    (b64ok : String → Bool)
    (aiImageReply : String → List Message → String) : HandlerOutput :=
  let userMessage := pyStrip text0
  match convIdOpt with
  | none => ⟨st, [Event.personal userId (Frame.error "Conversation ID is required")], [], []⟩
  | some cid =>
    if cid == "" then
      ⟨st, [Event.personal userId (Frame.error "Conversation ID is required")], [], []⟩
    else
      match getConversation st cid with
      | none => ⟨st, [], [], []⟩
      | some conv =>
        if !(conv.participants.contains userId) then
          ⟨st, [Event.personal userId (Frame.error
            "You are not a member of this conversation.")], [], []⟩
        else
          match imageUrl with
          | some u =>
            if u == "" then
              ⟨st, [Event.personal userId (Frame.error
                "Either imageUrl or imageBase64 is required")], [], []⟩
            else
              finishImage st cid userId userName u userMessage clientMsgId msgId botMsgId
                nowTs aiImageReply
          | none =>
            match imageBase64 with
            | some b =>
              if b == "" then
                ⟨st, [Event.personal userId (Frame.error
                  "Either imageUrl or imageBase64 is required")], [], []⟩
              else if b64ok b then
                finishImage st cid userId userName
                  ("data:" ++ imageMimeType ++ ";base64," ++ b) userMessage clientMsgId
                  msgId botMsgId nowTs aiImageReply
              else
                ⟨st, [Event.personal userId (Frame.error "Failed to process image")], [], []⟩
            | none =>
              ⟨st, [Event.personal userId (Frame.error
                "Either imageUrl or imageBase64 is required")], [], []⟩

/-! ## Intent classifier (`main.py`, `AIService._detect_query_intent`)

The LLM call and `json.loads` are external; the outcome of the call is an
`LLMOutcome` and the JSON parser is a function parameter `jsonLoads`
(returning `none` exactly when `json.loads` raises `JSONDecodeError`).
Everything after the call — stripping, code-fence removal, parsing, key
validation, boolean coercion, and every fallback — is embedded from the
source. -/

/-- Result of `_detect_query_intent` (the four boolean flags). -/
structure IntentResult where
  isAnimal : Bool
  isPlant : Bool
  isBoth : Bool
  isAmbiguous : Bool
deriving DecidableEq, Repr

/-- The ambiguous default returned on every fallback path. -/
def fallbackIntent : IntentResult :=
  { isAnimal := false, isPlant := false, isBoth := false, isAmbiguous := true }

/-- Outcome of the `generate_content` call: it raised, or it returned text
(`response.text`, possibly empty). -/
inductive LLMOutcome where
  | failure
  | response (text : String)
deriving DecidableEq, Repr

/-- Python values produced by `json.loads` (numbers collapsed to `Int`;
no claim depends on float parsing). -/
inductive PyJson where
  | null
  | bool (b : Bool)
  | num (n : Int)
  | str (s : String)
  | arr (xs : List PyJson)
  | obj (fields : List (String × PyJson))

/-- Python `==` between a JSON value and a string (used by `k in list`):
only a string with the same contents compares equal. -/
def PyJson.eqStr (v : PyJson) (k : String) : Bool :=
  match v with
  | .str s => s == k
  | _ => false

/-- Python truthiness `bool(v)` of a JSON value. -/
def pyTruthy : PyJson → Bool
  | .null => false
  | .bool b => b
  | .num n => !(n == 0)
  | .str s => !(s == "")
  | .arr xs => !xs.isEmpty
  | .obj fs => !fs.isEmpty

/-- Python dict lookup on the fields of a parsed JSON object. -/
def dictLookupJson (fields : List (String × PyJson)) (k : String) : Option PyJson :=
  (fields.find? (fun p => p.1 == k)).map Prod.snd

/-- Python `k in v`: key membership for dicts, element equality for lists,
substring test for strings; a `TypeError` (modelled as `.error ()`) for other
values, which the outer `except` of `_detect_query_intent` turns into the
ambiguous fallback. -/
def pyKeyIn (v : PyJson) (k : String) : Except Unit Bool :=
  match v with
  | .obj fs => .ok (fs.any (fun p => p.1 == k))
  | .arr xs => .ok (xs.any (fun x => x.eqStr k))
  | .str s => .ok (strContainsSub s k)
  | _ => .error ()

/-- `all(key in intent_result for key in required_keys)` with Python's
short-circuiting and exception propagation. -/
def allKeysIn (v : PyJson) : List String → Except Unit Bool
  | [] => .ok true
  | k :: ks =>
    match pyKeyIn v k with
    | .error e => .error e
    | .ok false => .ok false
    | .ok true => allKeysIn v ks

/-- The `required_keys` list of `_detect_query_intent`. -/
def requiredKeys : List String := ["is_animal", "is_plant", "is_both", "is_ambiguous"]

/-- The code-fence cleanup of `_detect_query_intent` (`main.py` lines
386-394): drop a leading ```json or ``` marker, drop a trailing ```,
then strip. -/
def stripCodeFences (t : String) : String :=
  let t1 := if pyStartsWith t "```json" then pyDrop 7 t
            else if pyStartsWith t "```" then pyDrop 3 t
            else t
  let t2 := if pyEndsWith t1 "```" then pyTake (pyLen t1 - 3) t1 else t1
  pyStrip t2

/-- The full text-cleaning pipeline applied to a raw LLM response before
`json.loads`: `response.text.strip()` (line 375), `strip()` again (line 387),
then the code-fence cleanup. -/
def cleanedResponse (raw : String) : String :=
  stripCodeFences (pyStrip (pyStrip raw))

/-- `_detect_query_intent` (`main.py` lines 320-441).  `modelAvailable` is
`self.model is not None`; `jsonLoads` abstracts `json.loads`. -/
def detectQueryIntent (modelAvailable : Bool) (jsonLoads : String → Option PyJson)
    (outcome : LLMOutcome) : IntentResult :=
  if !modelAvailable then fallbackIntent
  else
    match outcome with
    | .failure => fallbackIntent
    | .response raw =>
      let t0 := pyStrip raw
      if t0 == "" then fallbackIntent
      else
        match jsonLoads (stripCodeFences (pyStrip t0)) with
        | none => fallbackIntent
        | some j =>
          match allKeysIn j requiredKeys with
          | .error _ => fallbackIntent
          | .ok false => fallbackIntent
          | .ok true =>
            match j with
            | .obj fs =>
              { isAnimal := pyTruthy ((dictLookupJson fs "is_animal").getD (.bool false))
                isPlant := pyTruthy ((dictLookupJson fs "is_plant").getD (.bool false))
                isBoth := pyTruthy ((dictLookupJson fs "is_both").getD (.bool false))
                isAmbiguous := pyTruthy ((dictLookupJson fs "is_ambiguous").getD (.bool false)) }
            | _ => fallbackIntent

/-! ## Vector-ID sanitization (`rag_service.py`, `RAGService._sanitize_plant_id`) -/

/-- Python `str.lower()` restricted to the Basic Latin and Latin-1 ranges
(the only characters that occur in scientific names here); other code points
are left unchanged.  `0xD7` (`×`) is excluded, exactly as in Unicode. -/
def pyLowerChar (c : Char) : Char :=
  if 'A' ≤ c && c ≤ 'Z' then Char.ofNat (c.toNat + 32)
  else if 0xC0 ≤ c.toNat && c.toNat ≤ 0xDE && !(c.toNat == 0xD7) then Char.ofNat (c.toNat + 32)
  else c

/-- Python `str.lower()` (see `pyLowerChar`). -/
def pyLower (s : String) : String := ⟨s.data.map pyLowerChar⟩

/-- The `replacements` table of `_sanitize_plant_id` (`rag_service.py` lines
213-235).  The source lists the key `×` (U+00D7) twice; a Python dict keeps a
single entry.  Every key is a single code point. -/
def replacementTable : List (Char × String) :=
  [('×', "x"),
   ('é', "e"), ('è', "e"), ('ê', "e"), ('ë', "e"),
   ('à', "a"), ('á', "a"), ('â', "a"), ('ä', "a"),
   ('ù', "u"), ('ú', "u"), ('û', "u"), ('ü', "u"),
   ('ö', "o"), ('ó', "o"), ('ò', "o"), ('ô', "o"),
   ('ç', "c"), ('ñ', "n"), ('ß', "ss")]

/-- The `for non_ascii, ascii_char in replacements.items(): plant_id =
plant_id.replace(...)` loop.  Each key is a single code point, so
`str.replace` is a per-character expansion. -/
def applyReplacements (cs : List Char) : List Char :=
  replacementTable.foldl
    (fun acc kv => acc.flatMap (fun c => if c == kv.1 then kv.2.data else [c])) cs

/-- Python `s.encode('ascii', 'ignore').decode('ascii')`: drop all code
points ≥ 128. -/
def asciiOnly (cs : List Char) : List Char := cs.filter (fun c => c.toNat < 128)

/-- `re.sub(r'[^a-z0-9_]', '_', s)`: replace every character outside
`[a-z0-9_]` with an underscore. -/
def underscoreNonAlnum (cs : List Char) : List Char :=
  cs.map (fun c =>
    if ('a' ≤ c && c ≤ 'z') || ('0' ≤ c && c ≤ '9') || c == '_' then c else '_')

/-- `re.sub(r'_+', '_', s)`: collapse runs of underscores. -/
def collapseUnderscores : List Char → List Char
  | [] => []
  | [c] => [c]
  | c :: d :: rest =>
      if c == '_' && d == '_' then collapseUnderscores (d :: rest)
      else c :: collapseUnderscores (d :: rest)

/-- Python `s.strip('_')`. -/
def stripUnderscores (cs : List Char) : List Char :=
  ((cs.dropWhile (fun c => c == '_')).reverse.dropWhile (fun c => c == '_')).reverse

/-- The sanitization pipeline after the emptiness checks: lowercase, apply
the replacement table, NFKD-normalize (`nfkd` abstracts
`unicodedata.normalize('NFKD', ·)`, which is identity on ASCII strings),
drop non-ASCII, underscore non-alphanumerics, collapse and trim
underscores. -/
def sanitizeCore (nfkd : String → String) (s : String) : List Char :=
  stripUnderscores (collapseUnderscores (underscoreNonAlnum
    (asciiOnly (nfkd ⟨applyReplacements (pyLower s).data⟩).data)))

/-- `_sanitize_plant_id` (`rag_service.py` lines 201-259); also used verbatim
by `_sanitize_animal_id`. -/
def sanitizePlantId (nfkd : String → String) (scientificName : String) : String :=
  if scientificName == "" then "unknown"
  else
    if (sanitizeCore nfkd scientificName).isEmpty then "unknown"
    else ⟨sanitizeCore nfkd scientificName⟩


/-! ## Retrieval formatting (`rag_service.py`, `search_plants` /
`get_rag_context`)

The Pinecone query itself is external; its result — the list of matches, in
descending-score order or otherwise — is the input.  The grouping by
scientific name, per-species score sort, best-chunk selection, and the
context-bundle assembly are embedded from the source. -/

/-- The metadata stored with each Pinecone vector (`_chunk_plant_data`).
`chunkIndex` is `none` for `basic_info` chunks (`metadata.get("chunk_index",
-1)` then defaults it).  Scores are embedded as `Int`; no claim depends on
float arithmetic. -/
structure PMeta where
  scientificName : String
  commonName : String
  family : String
  genus : String
  summary : String
  wikipediaUrl : String
  chunkText : String
  ctype : String
  chunkIndex : Option Int
deriving DecidableEq, Repr

/-- One Pinecone match (`results.matches` element). -/
structure PMatch where
  score : Int
  metadata : PMeta
deriving DecidableEq, Repr

/-- The per-chunk record built in the grouping loop of `search_plants`
(`rag_service.py` lines 582-597). -/
structure RChunk where
  chunkText : String
  ctype : String
  chunkIndex : Int
  score : Int
  metadata : PMeta
deriving DecidableEq, Repr

/-- Build the chunk record from a match (`metadata.get("chunk_text", "")`,
`metadata.get("type", "")`, `metadata.get("chunk_index", -1)`). -/
def matchToRChunk (m : PMatch) : RChunk :=
  { chunkText := m.metadata.chunkText, ctype := m.metadata.ctype,
    chunkIndex := m.metadata.chunkIndex.getD (-1), score := m.score,
    metadata := m.metadata }

/-- Append a chunk to the dict entry of its species, creating the entry at
the end if absent (`plant_chunks[scientific_name].append(...)`). -/
def groupInsert (name : String) (c : RChunk) :
    List (String × List RChunk) → List (String × List RChunk)
  | [] => [(name, [c])]
  | (k, cs) :: rest =>
      if k == name then (k, cs ++ [c]) :: rest
      else (k, cs) :: groupInsert name c rest

/-- The grouping loop of `search_plants`: matches with an empty
`scientific_name` are skipped; the rest are grouped by name in first-seen
order. -/
def groupMatches (ms : List PMatch) : List (String × List RChunk) :=
  ms.foldl
    (fun gs m =>
      if m.metadata.scientificName == "" then gs
      else groupInsert m.metadata.scientificName (matchToRChunk m) gs) []

/-- The per-species result record of `search_plants` (`plant_info` entry,
`rag_service.py` lines 599-619). -/
structure PlantInfo where
  scientificName : String
  commonName : String
  family : String
  genus : String
  summary : String
  wikipediaUrl : String
  chunkText : String
  allChunks : List RChunk
  score : Int
  metadata : PMeta
deriving DecidableEq, Repr

/-- An all-empty metadata record (only used for the unreachable empty-group
case below). -/
def emptyMeta : PMeta :=
  { scientificName := "", commonName := "", family := "", genus := "", summary := "",
    wikipediaUrl := "", chunkText := "", ctype := "", chunkIndex := none }

/-- Build one `plant_info` entry: sort the species' chunks by score
descending (stable) and take the metadata of the best chunk.  Groups are
never empty; the `[]` branch only keeps the function total. -/
def mkPlantInfo (name : String) (chunks : List RChunk) : PlantInfo :=
  match sortByKeyDesc RChunk.score chunks with
  | [] =>
    { scientificName := name, commonName := "", family := "", genus := "", summary := "",
      wikipediaUrl := "", chunkText := "", allChunks := [], score := 0,
      metadata := emptyMeta }
  | best :: rest =>
    { scientificName := name, commonName := best.metadata.commonName,
      family := best.metadata.family, genus := best.metadata.genus,
      summary := best.metadata.summary, wikipediaUrl := best.metadata.wikipediaUrl,
      chunkText := best.chunkText, allChunks := best :: rest, score := best.score,
      metadata := best.metadata }

/-- The result-formatting part of `search_plants` (`rag_service.py` lines
579-622), applied to the raw match list. -/
def formatPlantResults (ms : List PMatch) : List PlantInfo :=
  (groupMatches ms).map (fun p => mkPlantInfo p.1 p.2)

/-- The content chunks of a chunk list: everything whose `type` is not
`basic_info` (`get_rag_context` separates out the basic chunk and never uses
it). -/
def contentOf (cs : List RChunk) : List RChunk :=
  cs.filter (fun c => !(c.ctype == "basic_info"))

/-- The `context_parts` entries appended for plant number `i`
(`get_rag_context` loop body, `rag_service.py` lines 713-753). -/
def plantBlockParts (i : Nat) (r : PlantInfo) : List String :=
  ["\n--- Plant " ++ toString i ++ ": " ++ r.scientificName ++ " (" ++ r.commonName ++ ") ---"]
  ++ (if r.family == "" then [] else ["Family: " ++ r.family])
  ++ (if r.genus == "" then [] else ["Genus: " ++ r.genus])
  ++ (if r.summary == "" then [] else ["Summary: " ++ r.summary])
  ++ (if r.allChunks.isEmpty then []
      else if (contentOf r.allChunks).isEmpty then []
      else ["Details: " ++ joinWith " "
              ((sortByKeyAsc RChunk.chunkIndex (contentOf r.allChunks)).map RChunk.chunkText)])
  ++ (if r.wikipediaUrl == "" then [] else ["Source: " ++ r.wikipediaUrl])

/-- Pairs each list element with its position, starting at `n`
(Python `enumerate(xs, n)`). -/
def enumIdx {α : Type} : Nat → List α → List (Nat × α)
  | _, [] => []
  | n, x :: xs => (n, x) :: enumIdx (n + 1) xs

/-- The full `context_parts` list of `get_rag_context` (header, the blocks of
the first `top_k` species, footer). -/
def getRagContextParts (ms : List PMatch) (topK : Nat) : List String :=
  ["Relevant Plant Information:"]
  ++ (enumIdx 1 ((formatPlantResults ms).take topK)).flatMap
       (fun p => plantBlockParts p.1 p.2)
  ++ ["\n=== END OF PLANT INFORMATION ===\n"]

/-- `get_rag_context` (`rag_service.py` lines 703-756) applied to the matches
returned by the (externally oversampled) Pinecone query: empty bundle when
there are no results, otherwise the newline-join of `context_parts`. -/
def getRagContext (ms : List PMatch) (topK : Nat) : String :=
  if (formatPlantResults ms).isEmpty then ""
  else joinWith "\n" (getRagContextParts ms topK)

/-- Spec-shaped basic-info lines of a species block (§4.5 step 5/6 of the
spec: taxonomy + summary, i.e. what the `basic_info` chunk holds, precede
the reassembled details). -/
def specBasicParts (i : Nat) (r : PlantInfo) : List String :=
  ["\n--- Plant " ++ toString i ++ ": " ++ r.scientificName ++ " (" ++ r.commonName ++ ") ---"]
  ++ (if r.family == "" then [] else ["Family: " ++ r.family])
  ++ (if r.genus == "" then [] else ["Genus: " ++ r.genus])
  ++ (if r.summary == "" then [] else ["Summary: " ++ r.summary])

/-- Spec-shaped details line: the returned content chunks, sorted by
`chunk_index` ascending, joined by single spaces. -/
def specDetailsParts (cs : List RChunk) : List String :=
  if (sortByKeyAsc RChunk.chunkIndex (contentOf cs)).isEmpty then []
  else ["Details: " ++ joinWith " "
          ((sortByKeyAsc RChunk.chunkIndex (contentOf cs)).map RChunk.chunkText)]

/-- Spec-shaped source line of a species block. -/
def specSourceParts (r : PlantInfo) : List String :=
  if r.wikipediaUrl == "" then [] else ["Source: " ++ r.wikipediaUrl]

/-- The keys (scientific names) of a grouping dict. -/
def keysOfGroups (gs : List (String × List RChunk)) : List String := gs.map Prod.fst

/-- Lookup of a species' chunk list in the grouping dict (empty if absent). -/
def groupLookup (gs : List (String × List RChunk)) (n : String) : List RChunk :=
  ((gs.find? (fun p => p.1 == n)).map Prod.snd).getD []

/-- The chunks a species should end up with: the matches carrying its
scientific name, in match order. -/
def groupSpec (ms : List PMatch) (n : String) : List RChunk :=
  (ms.filter (fun m => m.metadata.scientificName == n)).map matchToRChunk

/-! ## Concrete inputs used by witnesses and counterexamples -/

/-- A message saved first (older `createdAt`). -/
def msgA : Message :=
  { id := "m1", text := "first", userId := "u1", userName := "U1",
    conversationId := "conv-1", createdAt := "2024-01-01T00:00:00", isBot := false,
    msgType := "text", imageUrl := none, clientMessageId := none }

/-- A message saved second (newer `createdAt`). -/
def msgB : Message :=
  { id := "m2", text := "second", userId := "u2", userName := "U2",
    conversationId := "conv-1", createdAt := "2024-01-02T00:00:00", isBot := false,
    msgType := "text", imageUrl := none, clientMessageId := none }

/-- The in-memory store after saving `msgA` then `msgB`. -/
def storeAB : Store := saveMessage (saveMessage emptyStore msgA) msgB

/-- A concrete group conversation without the bot. -/
def convW : Conversation :=
  { id := "c1", name := none, convType := "group", participants := ["alice", "bob"],
    createdAt := "2024-01-01T00:00:00", hasBot := false }

/-- A concrete store holding only `convW`. -/
def stW : Store := ⟨[("c1", convW)], []⟩

/-- A concrete AI reply function. -/
def aiW : String → List Message → String := fun _ _ => "bot-reply"

/-- Metadata of the `basic_info` chunk of a concrete species. -/
def metaBasicW : PMeta :=
  { scientificName := "Taraxacum officinale", commonName := "dandelion",
    family := "Asteraceae", genus := "Taraxacum", summary := "A widespread herb.",
    wikipediaUrl := "https://example.org/taraxacum", chunkText := "basic text",
    ctype := "basic_info", chunkIndex := none }

/-- Metadata of content chunk number 2 of the same species. -/
def metaContent2W : PMeta :=
  { scientificName := "Taraxacum officinale", commonName := "dandelion",
    family := "Asteraceae", genus := "Taraxacum", summary := "A widespread herb.",
    wikipediaUrl := "https://example.org/taraxacum", chunkText := "content two text",
    ctype := "detailed_content", chunkIndex := some 2 }

/-- A concrete match list: the species' basic chunk and its content chunk 2
(and nothing else), as in scenario S6 of the spec. -/
def msW : List PMatch := [⟨95, metaBasicW⟩, ⟨90, metaContent2W⟩]

/-- The species result `search_plants` builds from `msW`. -/
def rW : PlantInfo :=
  mkPlantInfo "Taraxacum officinale" [matchToRChunk ⟨95, metaBasicW⟩, matchToRChunk ⟨90, metaContent2W⟩]

/-! ## Helper lemmas -/

theorem dictFind_dictUpdate {α : Type} (d : List (String × α)) (k : String) (f : α → α) :
    dictFind (dictUpdate d k f) k = (dictFind d k).map f := by
  induction d with
  | nil => rfl
  | cons p rest ih =>
    obtain ⟨k0, v0⟩ := p
    by_cases h : (k0 == k) = true
    · simp [dictUpdate, dictFind, h]
    · simp only [Bool.not_eq_true] at h
      simp [dictUpdate, dictFind, h, ih]

theorem getConversation_updateHasBot (st : Store) (cid : String) (b : Bool) :
    getConversation (updateConversationHasBot st cid b) cid
      = (getConversation st cid).map (fun c => { c with hasBot := b }) := by
  unfold getConversation updateConversationHasBot
  exact dictFind_dictUpdate _ _ _

theorem getConversation_saveMessage (st : Store) (m : Message) (cid : String) :
    getConversation (saveMessage st m) cid = getConversation st cid := rfl

/-- C1: the in-memory `get_messages` neither orders by `createdAt` descending
nor truncates to `limit`.  With two messages saved in chronological order and
`limit = 1` it returns both messages, oldest first, while the spec contract
(and the modelled durable backend) return only the newest.  The code also
contradicts its own caller: `generate_response` reverses the history "to get
chronological order (oldest first)" (`main.py` line 590), which assumes the
newest-first order this branch does not provide. -/
theorem claim1_in_memory_get_messages_diverges :
    getMessagesInMem storeAB "conv-1" 1 = [msgA, msgB]
    ∧ specGetMessages (getMessagesInMem storeAB "conv-1" 50) 1 = [msgB]
    ∧ durableGetMessages [msgA, msgB] "conv-1" 1 = [msgB]
    ∧ ¬ getMessagesInMem storeAB "conv-1" 1
        = specGetMessages (getMessagesInMem storeAB "conv-1" 50) 1 := by
  refine ⟨by decide, by decide, by decide, by decide⟩

/-- C5 counterexample: sending to a nonexistent conversation id produces NO
frames at all — in particular the sender does not receive the `error` frame
the claim asserts.  Both `send_message` and `send_image` just log a warning
and `continue`. -/
theorem claim5_counterexample :
    getConversation stW "nope" = none
    ∧ (handleSendMessage stW "alice" "Alice" "hello" (some "nope") none "m1" "b1" "t0"
        aiW).events = []
    ∧ (handleSendImage stW "alice" "Alice" (some "nope") (some "http-u") none "image/jpeg"
        "hi" none "m1" "b1" "t0" (fun _ => true) aiW).events = [] := by
  refine ⟨by decide, by decide, by decide⟩

/-- C5 (amended): a `send_message` or `send_image` frame referencing a
conversation id for which no conversation exists is dropped silently: no
frame is sent to anyone (only a warning is logged), the store is unchanged,
nothing is persisted, and the connection is not disconnected (the handler
returns normally and keeps reading frames). -/
theorem claim5_unknown_conversation_silently_dropped
    (st : Store) (userId userName text0 : String) (cid : String) (cm : Option String)
    (msgId botMsgId nowTs : String) (aiReply aiImageReply : String → List Message → String)
    (imageUrl imageBase64 : Option String) (mime : String) (b64ok : String → Bool)
    (hcid : ¬ cid = "")
    (hnone : getConversation st cid = none) :
    handleSendMessage st userId userName text0 (some cid) cm msgId botMsgId nowTs aiReply
      = ⟨st, [], [], []⟩
    ∧ handleSendImage st userId userName (some cid) imageUrl imageBase64 mime text0 cm
        msgId botMsgId nowTs b64ok aiImageReply = ⟨st, [], [], []⟩ := by
  have hc : (cid == "") = false := by simp [hcid]
  constructor
  · unfold handleSendMessage
    by_cases h : (pyStrip text0 == "") = true
    · simp [h, hc]
    · simp only [Bool.not_eq_true] at h
      simp [h, hc, hnone]
  · unfold handleSendImage
    simp [hc, hnone]

/-- C5 witness for the amended theorem at a concrete unknown id. -/
theorem claim5_witness :
    handleSendMessage stW "alice" "Alice" "hello" (some "nope") none "m1" "b1" "t0" aiW
      = ⟨stW, [], [], []⟩
    ∧ handleSendImage stW "alice" "Alice" (some "nope") (some "http-u") none "image/jpeg"
        "hi" none "m1" "b1" "t0" (fun _ => true) aiW = ⟨stW, [], [], []⟩ :=
  claim5_unknown_conversation_silently_dropped stW "alice" "Alice" "hello" "nope" none
    "m1" "b1" "t0" aiW aiW (some "http-u") none "image/jpeg" (fun _ => true)
    (by decide) (by decide)

/-- C6: a `send_message` from a user who is not a participant of the
(existing) conversation yields exactly one `error` frame to the sender, an
unchanged store, no persisted message, no broadcast, and no RAG call; the
handler returns normally so the connection stays open. -/
theorem claim6_non_participant_rejected
    (st : Store) (cid userId userName text0 : String) (cm : Option String)
    (msgId botMsgId nowTs : String) (aiReply : String → List Message → String)
    (conv : Conversation)
    (hconv : getConversation st cid = some conv)
    (hcid : ¬ cid = "")
    (htext : ¬ pyStrip text0 = "")
    (hpart : conv.participants.contains userId = false) :
    handleSendMessage st userId userName text0 (some cid) cm msgId botMsgId nowTs aiReply
      = ⟨st, [Event.personal userId (Frame.error
          "You are not a member of this conversation. Please join the group first.")],
         [], []⟩ := by
  have hc : (cid == "") = false := by simp [hcid]
  have ht : (pyStrip text0 == "") = false := by simp [htext]
  have hmem : userId ∉ conv.participants := by simpa using hpart
  unfold handleSendMessage
  simp [ht, hc, hconv, hpart]
  intro hmem2
  exact absurd hmem2 hmem

/-- C6 witness: a concrete non-participant sender. -/
theorem claim6_witness :
    handleSendMessage stW "mallory" "Mallory" "hello" (some "c1") none "m1" "b1" "t0" aiW
      = ⟨stW, [Event.personal "mallory" (Frame.error
          "You are not a member of this conversation. Please join the group first.")],
         [], []⟩ :=
  claim6_non_participant_rejected stW "c1" "mallory" "Mallory" "hello" none "m1" "b1" "t0"
    aiW convW (by decide) (by decide) (by decide) (by decide)

theorem handleSendMessage_eq_of_participant
    (st : Store) (cid userId userName text0 : String) (cm : Option String)
    (msgId botMsgId nowTs : String) (aiReply : String → List Message → String)
    (conv : Conversation)
    (hconv : getConversation st cid = some conv)
    (hcid : ¬ cid = "")
    (htext : ¬ pyStrip text0 = "")
    (hpart : conv.participants.contains userId = true) :
    handleSendMessage st userId userName text0 (some cid) cm msgId botMsgId nowTs aiReply
    = if pyStartsWith (pyStrip text0) "/bot" = true then
        if pyStrip (pyDrop 4 (pyStrip text0)) = "" then
          { store := if conv.hasBot = false then updateConversationHasBot st cid true else st,
            events := if conv.hasBot = false
                      then [Event.broadcast cid none (Frame.botAdded cid)] else [],
            persisted := [], ragQueries := [] }
        else
          afterCommands (if conv.hasBot = false then updateConversationHasBot st cid true else st)
            (if conv.hasBot = false then [Event.broadcast cid none (Frame.botAdded cid)] else [])
            cid userId userName (pyStrip (pyDrop 4 (pyStrip text0))) cm msgId botMsgId nowTs
            aiReply
      else
        afterCommands st [] cid userId userName (pyStrip text0) cm msgId botMsgId nowTs
          aiReply := by
  have hc : (cid == "") = false := by simp [hcid]
  have ht : (pyStrip text0 == "") = false := by simp [htext]
  have hmem : userId ∈ conv.participants := by
    have := List.elem_eq_mem (α := String) userId conv.participants
    rw [List.contains] at hpart
    rw [hpart] at this
    exact of_decide_eq_true this.symm
  unfold handleSendMessage
  simp [ht, hc, hconv, hmem]

theorem afterCommands_chat_eq
    (st : Store) (evs : List Event) (cid userId userName : String) (cm : Option String)
    (msgId botMsgId nowTs : String) (aiReply : String → List Message → String)
    (conv1 : Conversation)
    (hconv : getConversation st cid = some conv1) :
    afterCommands st evs cid userId userName "/chat" cm msgId botMsgId nowTs aiReply
    = if conv1.hasBot then
        ⟨updateConversationHasBot st cid false,
         evs ++ [Event.broadcast cid none (Frame.botRemoved cid)], [], []⟩
      else ⟨st, evs, [], []⟩ := by
  unfold afterCommands
  simp [hconv]

theorem afterCommands_normal_eq
    (st : Store) (evs : List Event) (cid userId userName mtext : String) (cm : Option String)
    (msgId botMsgId nowTs : String) (aiReply : String → List Message → String)
    (conv1 : Conversation)
    (hconv : getConversation st cid = some conv1)
    (hne : ¬ mtext = "/chat") :
    afterCommands st evs cid userId userName mtext cm msgId botMsgId nowTs aiReply
    = (if conv1.hasBot then
        ⟨saveMessage (saveMessage st
            ⟨msgId, mtext, userId, userName, cid, nowTs, false, "text", none, cm⟩)
            ⟨botMsgId,
             aiReply mtext (getMessagesInMem (saveMessage st
               ⟨msgId, mtext, userId, userName, cid, nowTs, false, "text", none, cm⟩) cid 10),
             "bot", "AI Bot", cid, nowTs, true, "text", none, none⟩,
         evs ++ [Event.broadcast cid (some userId) (Frame.newMessage
                   ⟨msgId, mtext, userId, userName, cid, nowTs, false, "text", none, cm⟩),
                 Event.personal userId (Frame.messageSent
                   ⟨msgId, mtext, userId, userName, cid, nowTs, false, "text", none, cm⟩),
                 Event.broadcast cid none (Frame.newMessage
                   ⟨botMsgId,
                    aiReply mtext (getMessagesInMem (saveMessage st
                      ⟨msgId, mtext, userId, userName, cid, nowTs, false, "text", none, cm⟩)
                      cid 10),
                    "bot", "AI Bot", cid, nowTs, true, "text", none, none⟩)],
         [⟨msgId, mtext, userId, userName, cid, nowTs, false, "text", none, cm⟩,
          ⟨botMsgId,
           aiReply mtext (getMessagesInMem (saveMessage st
             ⟨msgId, mtext, userId, userName, cid, nowTs, false, "text", none, cm⟩) cid 10),
           "bot", "AI Bot", cid, nowTs, true, "text", none, none⟩],
         [mtext]⟩
      else
        ⟨saveMessage st ⟨msgId, mtext, userId, userName, cid, nowTs, false, "text", none, cm⟩,
         evs ++ [Event.broadcast cid (some userId) (Frame.newMessage
                   ⟨msgId, mtext, userId, userName, cid, nowTs, false, "text", none, cm⟩),
                 Event.personal userId (Frame.messageSent
                   ⟨msgId, mtext, userId, userName, cid, nowTs, false, "text", none, cm⟩)],
         [⟨msgId, mtext, userId, userName, cid, nowTs, false, "text", none, cm⟩], []⟩) := by
  have hne2 : (mtext == "/chat") = false := by simp [hne]
  unfold afterCommands
  have hsave : getConversation (saveMessage st
      ⟨msgId, mtext, userId, userName, cid, nowTs, false, "text", none, cm⟩) cid
      = some conv1 := by rw [getConversation_saveMessage]; exact hconv
  simp [hne2, hsave]

/-- C3 counterexample: for the frame text `"/bot /chat"` — a `/bot <query>`
frame with `<query> = "/chat"` — the handler first enables the bot and then
the subsequent `/chat` check disables it again, so `has_bot` ends `false`
(the claim asserts `true`), and no message is persisted or fed to RAG. -/
theorem claim3_counterexample :
    (getConversation (handleSendMessage stW "alice" "Alice" "/bot /chat" (some "c1") none
        "m1" "b1" "t0" aiW).store "c1").map Conversation.hasBot = some false
    ∧ (handleSendMessage stW "alice" "Alice" "/bot /chat" (some "c1") none
        "m1" "b1" "t0" aiW).persisted = [] := by
  refine ⟨by decide, by decide⟩

/-- C3 (amended): with an existing conversation and a participant sender,
after `/chat` the conversation has `has_bot = false`; after `/bot` alone
`has_bot = true` with `bot_added` broadcast exactly on a `false → true`
transition; after `/bot <query>` with `<query> ≠ "/chat"` the conversation
has `has_bot = true`, the persisted and broadcast user message and the RAG
query all carry exactly `<query>`, and `bot_added` is broadcast only when
`has_bot` was previously `false`; in the corner case `/bot /chat` the bot is
enabled and then immediately disabled by the `/chat` handling, with nothing
persisted and no RAG call. -/
theorem claim3_commands
    (st : Store) (cid userId userName text0 : String) (cm : Option String)
    (msgId botMsgId nowTs : String) (aiReply : String → List Message → String)
    (conv : Conversation)
    (hconv : getConversation st cid = some conv)
    (hcid : ¬ cid = "")
    (hpart : conv.participants.contains userId = true) :
    ∀ out : HandlerOutput,
      out = handleSendMessage st userId userName text0 (some cid) cm msgId botMsgId nowTs
              aiReply →
      (pyStrip text0 = "/chat" →
        (getConversation out.store cid).map Conversation.hasBot = some false
        ∧ out.persisted = [] ∧ out.ragQueries = [])
      ∧ (pyStrip text0 = "/bot" →
        (getConversation out.store cid).map Conversation.hasBot = some true
        ∧ out.persisted = []
        ∧ out.events = (if conv.hasBot then []
                        else [Event.broadcast cid none (Frame.botAdded cid)]))
      ∧ (∀ q : String, pyStartsWith (pyStrip text0) "/bot" = true →
          pyStrip (pyDrop 4 (pyStrip text0)) = q → ¬ q = "" → ¬ q = "/chat" →
          (getConversation out.store cid).map Conversation.hasBot = some true
          ∧ (∃ bm : Message,
              out.persisted =
                  [⟨msgId, q, userId, userName, cid, nowTs, false, "text", none, cm⟩, bm]
              ∧ bm.isBot = true
              ∧ out.events =
                  (if conv.hasBot then []
                   else [Event.broadcast cid none (Frame.botAdded cid)])
                  ++ [Event.broadcast cid (some userId) (Frame.newMessage
                        ⟨msgId, q, userId, userName, cid, nowTs, false, "text", none, cm⟩),
                      Event.personal userId (Frame.messageSent
                        ⟨msgId, q, userId, userName, cid, nowTs, false, "text", none, cm⟩),
                      Event.broadcast cid none (Frame.newMessage bm)])
          ∧ out.ragQueries = [q])
      ∧ (pyStartsWith (pyStrip text0) "/bot" = true →
          pyStrip (pyDrop 4 (pyStrip text0)) = "/chat" →
          (getConversation out.store cid).map Conversation.hasBot = some false
          ∧ out.persisted = [] ∧ out.ragQueries = []) := by
  intro out hout
  subst hout
  refine ⟨?_, ?_, ?_, ?_⟩
  · -- (a) "/chat"
    intro ha
    have htext : ¬ pyStrip text0 = "" := by rw [ha]; decide
    rw [handleSendMessage_eq_of_participant st cid userId userName text0 cm msgId botMsgId
      nowTs aiReply conv hconv hcid htext hpart]
    rw [ha]
    rw [if_neg (by decide : ¬ pyStartsWith "/chat" "/bot" = true)]
    rw [afterCommands_chat_eq st [] cid userId userName cm msgId botMsgId nowTs aiReply
      conv hconv]
    cases hb : conv.hasBot
    · simp [hconv, hb]
    · simp [getConversation_updateHasBot, hconv]
  · -- (b) "/bot" alone
    intro hb'
    have htext : ¬ pyStrip text0 = "" := by rw [hb']; decide
    rw [handleSendMessage_eq_of_participant st cid userId userName text0 cm msgId botMsgId
      nowTs aiReply conv hconv hcid htext hpart]
    rw [hb']
    rw [if_pos (by decide : pyStartsWith "/bot" "/bot" = true)]
    rw [if_pos (by decide : pyStrip (pyDrop 4 "/bot") = "")]
    cases hb : conv.hasBot
    · simp [getConversation_updateHasBot, hconv, hb]
    · simp [hconv, hb]
  · -- (c) "/bot <query>", query ≠ "" and ≠ "/chat"
    intro q hb hq hqne hqchat
    have htext : ¬ pyStrip text0 = "" := by
      intro h0
      rw [h0] at hb
      exact absurd hb (by decide)
    rw [handleSendMessage_eq_of_participant st cid userId userName text0 cm msgId botMsgId
      nowTs aiReply conv hconv hcid htext hpart]
    rw [if_pos hb, hq, if_neg hqne]
    cases hb0 : conv.hasBot
    · -- bot was off: it is switched on first
      have hconv1 : getConversation (updateConversationHasBot st cid true) cid
          = some { conv with hasBot := true } := by
        rw [getConversation_updateHasBot, hconv]; rfl
      rw [if_pos rfl, if_pos rfl]
      rw [afterCommands_normal_eq (updateConversationHasBot st cid true)
        [Event.broadcast cid none (Frame.botAdded cid)] cid userId userName q cm msgId
        botMsgId nowTs aiReply { conv with hasBot := true } hconv1 hqchat]
      rw [if_pos (show ({ conv with hasBot := true } : Conversation).hasBot = true from rfl)]
      refine ⟨?_, ⟨_, rfl, rfl, by simp⟩, rfl⟩
      rw [getConversation_saveMessage, getConversation_saveMessage, hconv1]
      rfl
    · -- bot was already on
      rw [if_neg (by decide : ¬ true = false), if_neg (by decide : ¬ true = false)]
      rw [afterCommands_normal_eq st [] cid userId userName q cm msgId botMsgId nowTs
        aiReply conv hconv hqchat]
      rw [if_pos hb0]
      refine ⟨?_, ⟨_, rfl, rfl, by simp⟩, rfl⟩
      rw [getConversation_saveMessage, getConversation_saveMessage, hconv]
      simp [hb0]
  · -- (d) "/bot /chat"
    intro hb hq
    have htext : ¬ pyStrip text0 = "" := by
      intro h0
      rw [h0] at hb
      exact absurd hb (by decide)
    rw [handleSendMessage_eq_of_participant st cid userId userName text0 cm msgId botMsgId
      nowTs aiReply conv hconv hcid htext hpart]
    rw [if_pos hb, hq, if_neg (by decide : ¬ "/chat" = "")]
    cases hb0 : conv.hasBot
    · have hconv1 : getConversation (updateConversationHasBot st cid true) cid
          = some { conv with hasBot := true } := by
        rw [getConversation_updateHasBot, hconv]; rfl
      rw [if_pos rfl, if_pos rfl]
      rw [afterCommands_chat_eq (updateConversationHasBot st cid true)
        [Event.broadcast cid none (Frame.botAdded cid)] cid userId userName cm msgId
        botMsgId nowTs aiReply { conv with hasBot := true } hconv1]
      rw [if_pos (show ({ conv with hasBot := true } : Conversation).hasBot = true from rfl)]
      refine ⟨?_, rfl, rfl⟩
      rw [getConversation_updateHasBot, hconv1]
      rfl
    · rw [if_neg (by decide : ¬ true = false), if_neg (by decide : ¬ true = false)]
      rw [afterCommands_chat_eq st [] cid userId userName cm msgId botMsgId nowTs aiReply
        conv hconv]
      rw [if_pos hb0]
      refine ⟨?_, rfl, rfl⟩
      rw [getConversation_updateHasBot, hconv]
      rfl

/-- C3 witness: the inline bot command of scenario S5 on a concrete store. -/
theorem claim3_witness :
    (getConversation (handleSendMessage stW "alice" "Alice" "/bot is dandelion edible?"
        (some "c1") none "m1" "b1" "t0" aiW).store "c1").map Conversation.hasBot = some true
    ∧ (∃ bm : Message,
        (handleSendMessage stW "alice" "Alice" "/bot is dandelion edible?" (some "c1") none
          "m1" "b1" "t0" aiW).persisted =
          [⟨"m1", "is dandelion edible?", "alice", "Alice", "c1", "t0", false, "text",
            none, none⟩, bm]
        ∧ bm.isBot = true
        ∧ (handleSendMessage stW "alice" "Alice" "/bot is dandelion edible?" (some "c1")
            none "m1" "b1" "t0" aiW).events =
            (if convW.hasBot then [] else [Event.broadcast "c1" none (Frame.botAdded "c1")])
            ++ [Event.broadcast "c1" (some "alice") (Frame.newMessage
                  ⟨"m1", "is dandelion edible?", "alice", "Alice", "c1", "t0", false,
                   "text", none, none⟩),
                Event.personal "alice" (Frame.messageSent
                  ⟨"m1", "is dandelion edible?", "alice", "Alice", "c1", "t0", false,
                   "text", none, none⟩),
                Event.broadcast "c1" none (Frame.newMessage bm)])
    ∧ (handleSendMessage stW "alice" "Alice" "/bot is dandelion edible?" (some "c1") none
        "m1" "b1" "t0" aiW).ragQueries = ["is dandelion edible?"] :=
  (claim3_commands stW "c1" "alice" "Alice" "/bot is dandelion edible?" none "m1" "b1"
    "t0" aiW convW (by decide) (by decide) (by decide) _ rfl).2.2.1
    "is dandelion edible?" (by decide) (by decide) (by decide) (by decide)

theorem isPrefixOf_length_le {α : Type} [BEq α] :
    ∀ (l1 l2 : List α), l1.isPrefixOf l2 = true → l1.length ≤ l2.length := by
  intro l1
  induction l1 with
  | nil => intro l2 h; simp
  | cons a as ih =>
    intro l2 h
    cases l2 with
    | nil => simp [List.isPrefixOf] at h
    | cons b bs =>
      simp only [List.isPrefixOf, Bool.and_eq_true] at h
      have := ih bs h.2
      simp only [List.length_cons]
      omega

theorem pyStripList_length_le (cs : List Char) : (pyStripList cs).length ≤ cs.length := by
  unfold pyStripList
  have h1 : (cs.dropWhile isPyWhitespace).length ≤ cs.length :=
    (List.dropWhile_sublist isPyWhitespace).length_le
  have h2 : (((cs.dropWhile isPyWhitespace).reverse.dropWhile isPyWhitespace)).length
      ≤ (cs.dropWhile isPyWhitespace).reverse.length :=
    (List.dropWhile_sublist isPyWhitespace).length_le
  simp only [List.length_reverse] at *
  omega

/-- C10: a participant frame whose stripped text merely has the four-letter
prefix `/bot` (for example `/botany`) is treated as a bot command: when the
bot was off, the `bot_added` broadcast is emitted (the bot is enabled); every
ordinary (non-bot) message the handler persists carries exactly the stripped
text after the first four characters as its text; the original text is never
persisted as an ordinary message; and every RAG query equals that stripped
remainder. -/
theorem claim10_bot_prefix_commands
    (st : Store) (cid userId userName text0 : String) (cm : Option String)
    (msgId botMsgId nowTs : String) (aiReply : String → List Message → String)
    (conv : Conversation)
    (hconv : getConversation st cid = some conv)
    (hcid : ¬ cid = "")
    (hpart : conv.participants.contains userId = true)
    (hb : pyStartsWith (pyStrip text0) "/bot" = true) :
    ∀ out : HandlerOutput,
      out = handleSendMessage st userId userName text0 (some cid) cm msgId botMsgId nowTs
              aiReply →
      (conv.hasBot = false → Event.broadcast cid none (Frame.botAdded cid) ∈ out.events)
      ∧ (∀ m ∈ out.persisted, m.isBot = false →
          m.text = pyStrip (pyDrop 4 (pyStrip text0)))
      ∧ (∀ m ∈ out.persisted, m.isBot = false → ¬ m.text = pyStrip text0)
      ∧ (∀ s ∈ out.ragQueries, s = pyStrip (pyDrop 4 (pyStrip text0))) := by
  intro out hout
  subst hout
  have htext : ¬ pyStrip text0 = "" := by
    intro h0
    rw [h0] at hb
    exact absurd hb (by decide)
  -- the stripped remainder is strictly shorter than the stripped text
  have hqney : ¬ pyStrip (pyDrop 4 (pyStrip text0)) = pyStrip text0 := by
    intro heq
    have h4 : 4 ≤ (pyStrip text0).data.length := by
      have hb2 := hb
      unfold pyStartsWith at hb2
      have := isPrefixOf_length_le _ _ hb2
      simpa using this
    have hle : (pyStrip (pyDrop 4 (pyStrip text0))).data.length
        ≤ (pyStrip text0).data.length - 4 := by
      have : (pyStrip (pyDrop 4 (pyStrip text0))).data
          = pyStripList ((pyStrip text0).data.drop 4) := rfl
      rw [this]
      have h5 := pyStripList_length_le ((pyStrip text0).data.drop 4)
      simpa [List.length_drop] using h5
    rw [heq] at hle
    omega
  rw [handleSendMessage_eq_of_participant st cid userId userName text0 cm msgId botMsgId
    nowTs aiReply conv hconv hcid htext hpart]
  rw [if_pos hb]
  by_cases hq0 : pyStrip (pyDrop 4 (pyStrip text0)) = ""
  · rw [if_pos hq0]
    cases hb0 : conv.hasBot <;> simp
  · rw [if_neg hq0]
    by_cases hqc : pyStrip (pyDrop 4 (pyStrip text0)) = "/chat"
    · rw [hqc]
      cases hb0 : conv.hasBot
      · have hconv1 : getConversation (updateConversationHasBot st cid true) cid
            = some { conv with hasBot := true } := by
          rw [getConversation_updateHasBot, hconv]; rfl
        rw [if_pos rfl, if_pos rfl]
        rw [afterCommands_chat_eq (updateConversationHasBot st cid true)
          [Event.broadcast cid none (Frame.botAdded cid)] cid userId userName cm msgId
          botMsgId nowTs aiReply { conv with hasBot := true } hconv1]
        rw [if_pos (show ({ conv with hasBot := true } : Conversation).hasBot = true
          from rfl)]
        simp
      · rw [if_neg (by decide : ¬ true = false), if_neg (by decide : ¬ true = false)]
        rw [afterCommands_chat_eq st [] cid userId userName cm msgId botMsgId nowTs
          aiReply conv hconv]
        rw [if_pos hb0]
        simp
    · cases hb0 : conv.hasBot
      · have hconv1 : getConversation (updateConversationHasBot st cid true) cid
            = some { conv with hasBot := true } := by
          rw [getConversation_updateHasBot, hconv]; rfl
        rw [if_pos rfl, if_pos rfl]
        rw [afterCommands_normal_eq (updateConversationHasBot st cid true)
          [Event.broadcast cid none (Frame.botAdded cid)] cid userId userName
          (pyStrip (pyDrop 4 (pyStrip text0))) cm msgId botMsgId nowTs aiReply
          { conv with hasBot := true } hconv1 hqc]
        rw [if_pos (show ({ conv with hasBot := true } : Conversation).hasBot = true
          from rfl)]
        refine ⟨by intro _; simp, ?_, ?_, by intro s hs; simpa using hs⟩
        · intro m hm hbot
          simp only [List.mem_cons, List.mem_singleton, List.not_mem_nil] at hm
          rcases hm with h | h | h
          · rw [h]
          · rw [h] at hbot; simp at hbot
          · exact absurd h (by simp)
        · intro m hm hbot
          simp only [List.mem_cons, List.mem_singleton, List.not_mem_nil] at hm
          rcases hm with h | h | h
          · rw [h]; exact hqney
          · rw [h] at hbot; simp at hbot
          · exact absurd h (by simp)
      · rw [if_neg (by decide : ¬ true = false), if_neg (by decide : ¬ true = false)]
        rw [afterCommands_normal_eq st [] cid userId userName
          (pyStrip (pyDrop 4 (pyStrip text0))) cm msgId botMsgId nowTs aiReply conv hconv
          hqc]
        rw [if_pos hb0]
        refine ⟨by intro h; simp at h, ?_, ?_, by intro s hs; simpa using hs⟩
        · intro m hm hbot
          simp only [List.mem_cons, List.mem_singleton, List.not_mem_nil] at hm
          rcases hm with h | h | h
          · rw [h]
          · rw [h] at hbot; simp at hbot
          · exact absurd h (by simp)
        · intro m hm hbot
          simp only [List.mem_cons, List.mem_singleton, List.not_mem_nil] at hm
          rcases hm with h | h | h
          · rw [h]; exact hqney
          · rw [h] at hbot; simp at hbot
          · exact absurd h (by simp)

/-- C10 witness: a concrete `/botany` frame — query `"any"`, original text
never persisted. -/
theorem claim10_witness :
    (convW.hasBot = false →
      Event.broadcast "c1" none (Frame.botAdded "c1")
        ∈ (handleSendMessage stW "alice" "Alice" "/botany" (some "c1") none "m1" "b1" "t0"
            aiW).events)
    ∧ (∀ m ∈ (handleSendMessage stW "alice" "Alice" "/botany" (some "c1") none "m1" "b1"
          "t0" aiW).persisted, m.isBot = false → m.text = pyStrip (pyDrop 4 (pyStrip "/botany")))
    ∧ (∀ m ∈ (handleSendMessage stW "alice" "Alice" "/botany" (some "c1") none "m1" "b1"
          "t0" aiW).persisted, m.isBot = false → ¬ m.text = pyStrip "/botany")
    ∧ (∀ s ∈ (handleSendMessage stW "alice" "Alice" "/botany" (some "c1") none "m1" "b1"
          "t0" aiW).ragQueries, s = pyStrip (pyDrop 4 (pyStrip "/botany"))) :=
  claim10_bot_prefix_commands stW "c1" "alice" "Alice" "/botany" none "m1" "b1" "t0" aiW
    convW (by decide) (by decide) (by decide) (by decide) _ rfl

theorem pairContains_comm (u1 u2 a : String) :
    ([u1, u2].contains a) = ([u2, u1].contains a) := by
  simp only [List.contains, List.elem_eq_mem]
  by_cases h1 : a = u1 <;> by_cases h2 : a = u2 <;> simp [h1, h2]

theorem pySetEq_comm_pair (ps : List String) (u1 u2 : String) :
    pySetEq ps [u1, u2] = pySetEq ps [u2, u1] := by
  unfold pySetEq
  rw [show (fun a => [u1, u2].contains a) = (fun a => [u2, u1].contains a) from
    funext fun a => pairContains_comm u1 u2 a]
  congr 1
  simp only [List.all_cons, List.all_nil, Bool.and_true]
  exact Bool.and_comm _ _

theorem pySetEq_swap_self (u1 u2 : String) : pySetEq [u1, u2] [u2, u1] = true := by
  simp [pySetEq, List.contains, List.elem_eq_mem]

theorem find?_vals_dictSet {α : Type} (d : List (String × α)) (k : String) (v : α)
    (p : α → Bool) (hall : ∀ x ∈ d, p x.2 = false) (hv : p v = true) :
    ((dictSet d k v).map Prod.snd).find? p = some v := by
  induction d with
  | nil =>
    simp only [dictSet, List.map_cons, List.map_nil]
    exact List.find?_cons_of_pos _ hv
  | cons pr rest ih =>
    obtain ⟨k0, v0⟩ := pr
    by_cases h : (k0 == k) = true
    · simp only [dictSet]
      rw [if_pos h]
      simp only [List.map_cons]
      exact List.find?_cons_of_pos _ hv
    · simp only [dictSet]
      rw [if_neg h]
      simp only [List.map_cons]
      have h0 : p v0 = false := hall (k0, v0) (List.mem_cons_self _ _)
      rw [List.find?_cons_of_neg _ (by simp [h0])]
      exact ih (fun x hx => hall x (List.mem_cons_of_mem _ hx))

theorem createConversation_eq_some (st : Store) (f ts : String) (n : Option String)
    (u v : String) (c : Conversation)
    (hf : findConversationByParticipants st [u, v] "one_to_one" = some c) :
    createConversation st f ts n "one_to_one" [u, v] = (st, c) := by
  unfold createConversation
  rw [if_pos (by simp), hf]

theorem createConversation_eq_none (st : Store) (f ts : String) (n : Option String)
    (u v : String)
    (hf : findConversationByParticipants st [u, v] "one_to_one" = none) :
    createConversation st f ts n "one_to_one" [u, v]
      = mkNewConversation st f ts n "one_to_one" [u, v] := by
  unfold createConversation
  rw [if_pos (by simp), hf]

/-- C7: creating a one-to-one conversation twice with the same two-element
participant set (in either order) returns a conversation with the same id as
the first creation and leaves the store unchanged on the second call; and
`find_conversation_by_participants` returns `none` when no one-to-one
conversation with that participant set exists. -/
theorem claim7_direct_conversation_dedupe
    (st : Store) (u1 u2 f1 f2 ts1 ts2 : String) (n1 n2 : Option String)
    (h : ¬ u1 = u2) :
    ((createConversation (createConversation st f1 ts1 n1 "one_to_one" [u1, u2]).1 f2 ts2
        n2 "one_to_one" [u2, u1]).2.id
      = (createConversation st f1 ts1 n1 "one_to_one" [u1, u2]).2.id
     ∧ (createConversation (createConversation st f1 ts1 n1 "one_to_one" [u1, u2]).1 f2
        ts2 n2 "one_to_one" [u2, u1]).1
      = (createConversation st f1 ts1 n1 "one_to_one" [u1, u2]).1)
    ∧ ∀ ps : List String,
        (∀ c ∈ st.conversations.map Prod.snd,
          ¬(c.convType = "one_to_one" ∧ pySetEq c.participants ps = true)) →
        findConversationByParticipants st ps "one_to_one" = none := by
  constructor
  · cases hfind : findConversationByParticipants st [u1, u2] "one_to_one" with
    | some c =>
      have h1 := createConversation_eq_some st f1 ts1 n1 u1 u2 c hfind
      have hfind2 : findConversationByParticipants st [u2, u1] "one_to_one" = some c := by
        unfold findConversationByParticipants at hfind ⊢
        rw [show (fun c : Conversation =>
              c.convType == "one_to_one" && pySetEq c.participants [u2, u1])
            = (fun c : Conversation =>
              c.convType == "one_to_one" && pySetEq c.participants [u1, u2]) from
          funext fun c => by rw [pySetEq_comm_pair]]
        exact hfind
      have h2 := createConversation_eq_some st f2 ts2 n2 u2 u1 c hfind2
      simp [h1, h2]
    | none =>
      have h1 := createConversation_eq_none st f1 ts1 n1 u1 u2 hfind
      unfold findConversationByParticipants at hfind
      have hallfail := List.find?_eq_none.mp hfind
      have hall : ∀ x ∈ st.conversations,
          (fun c : Conversation =>
            c.convType == "one_to_one" && pySetEq c.participants [u2, u1]) x.2 = false := by
        intro x hx
        have hx2 : x.2 ∈ st.conversations.map Prod.snd := List.mem_map_of_mem Prod.snd hx
        have hfail := hallfail x.2 hx2
        show (x.2.convType == "one_to_one" && pySetEq x.2.participants [u2, u1]) = false
        rw [show pySetEq x.2.participants [u2, u1] = pySetEq x.2.participants [u1, u2] from
          (pySetEq_comm_pair _ u1 u2).symm]
        simpa using hfail
      have hfind2 : findConversationByParticipants
          (saveConversation st
            { id := f1, name := n1, convType := "one_to_one", participants := [u1, u2],
              createdAt := ts1, hasBot := false }) [u2, u1] "one_to_one"
          = some { id := f1, name := n1, convType := "one_to_one",
                   participants := [u1, u2], createdAt := ts1, hasBot := false } := by
        unfold findConversationByParticipants saveConversation
        exact find?_vals_dictSet st.conversations f1 _ _ hall (by simp [pySetEq_swap_self])
      have h2 := createConversation_eq_some
        (saveConversation st
          { id := f1, name := n1, convType := "one_to_one", participants := [u1, u2],
            createdAt := ts1, hasBot := false }) f2 ts2 n2 u2 u1 _ hfind2
      rw [h1]
      unfold mkNewConversation
      simp [h2]
  · intro ps hall
    unfold findConversationByParticipants
    rw [List.find?_eq_none]
    intro c hc
    have := hall c hc
    simp only [Bool.and_eq_true, beq_iff_eq, not_and] at this ⊢
    intro h1 h2
    exact this h1 h2

/-- C7 witness: two creations with swapped participant lists on the empty
store, and a lookup for a pair with no direct conversation. -/
theorem claim7_witness :
    (((createConversation (createConversation emptyStore "f1" "t1" none "one_to_one"
          ["u1", "u2"]).1 "f2" "t2" none "one_to_one" ["u2", "u1"]).2.id
      = (createConversation emptyStore "f1" "t1" none "one_to_one" ["u1", "u2"]).2.id
     ∧ (createConversation (createConversation emptyStore "f1" "t1" none "one_to_one"
          ["u1", "u2"]).1 "f2" "t2" none "one_to_one" ["u2", "u1"]).1
      = (createConversation emptyStore "f1" "t1" none "one_to_one" ["u1", "u2"]).1))
    ∧ findConversationByParticipants emptyStore ["u1", "u3"] "one_to_one" = none :=
  ⟨(claim7_direct_conversation_dedupe emptyStore "u1" "u2" "f1" "f2" "t1" "t2" none none
      (by decide)).1,
   (claim7_direct_conversation_dedupe emptyStore "u1" "u2" "f1" "f2" "t1" "t2" none none
      (by decide)).2 ["u1", "u3"] (by intro c hc; simp [emptyStore] at hc)⟩

theorem allKeysIn_obj (fs : List (String × PyJson)) (ks : List String) :
    allKeysIn (.obj fs) ks = .ok (ks.all (fun k => fs.any (fun p => p.1 == k))) := by
  induction ks with
  | nil => rfl
  | cons k ks ih =>
    cases hany : fs.any (fun p => p.1 == k) with
    | false =>
      simp only [allKeysIn, pyKeyIn, hany, List.all_cons, Bool.false_and]
    | true =>
      simp only [allKeysIn, pyKeyIn, hany, List.all_cons, ih, Bool.true_and]

/-- C8: every fallback path of `_detect_query_intent` — LLM call raised,
empty response text, response that does not parse as JSON, and parsed JSON
object missing one of the four required keys — returns the ambiguous default
`{is_animal: false, is_plant: false, is_both: false, is_ambiguous: true}`. -/
theorem claim8_classifier_fallbacks (jsonLoads : String → Option PyJson) (raw : String) :
    (detectQueryIntent true jsonLoads .failure = fallbackIntent)
    ∧ (pyStrip raw = "" → detectQueryIntent true jsonLoads (.response raw) = fallbackIntent)
    ∧ (jsonLoads (cleanedResponse raw) = none →
        detectQueryIntent true jsonLoads (.response raw) = fallbackIntent)
    ∧ (∀ fs : List (String × PyJson),
        jsonLoads (cleanedResponse raw) = some (.obj fs) →
        requiredKeys.all (fun k => fs.any (fun p => p.1 == k)) = false →
        detectQueryIntent true jsonLoads (.response raw) = fallbackIntent) := by
  refine ⟨rfl, ?_, ?_, ?_⟩
  · intro h
    unfold detectQueryIntent
    simp [h]
  · intro h
    unfold cleanedResponse at h
    unfold detectQueryIntent
    by_cases h0 : pyStrip raw = ""
    · simp [h0]
    · simp [h0, h]
  · intro fs hjl hmiss
    unfold cleanedResponse at hjl
    unfold detectQueryIntent
    by_cases h0 : pyStrip raw = ""
    · simp [h0]
    · simp [h0, hjl, allKeysIn_obj, hmiss]

/-- C8 witness: the four fallback paths at concrete inputs. -/
theorem claim8_witness :
    (detectQueryIntent true (fun _ => none) .failure = fallbackIntent)
    ∧ (detectQueryIntent true (fun _ => none) (.response "   ") = fallbackIntent)
    ∧ (detectQueryIntent true (fun _ => none) (.response "not json") = fallbackIntent)
    ∧ (detectQueryIntent true (fun _ => some (.obj [("is_animal", .bool true)]))
        (.response "x") = fallbackIntent) :=
  ⟨(claim8_classifier_fallbacks (fun _ => none) "x").1,
   (claim8_classifier_fallbacks (fun _ => none) "   ").2.1 (by decide),
   (claim8_classifier_fallbacks (fun _ => none) "not json").2.2.1 rfl,
   (claim8_classifier_fallbacks (fun _ => some (.obj [("is_animal", .bool true)])) "x").2.2.2
     [("is_animal", .bool true)] rfl (by decide)⟩

/-- C4 counterexample: the validation of `_detect_query_intent` only checks
that the four keys exist and coerces their values; it does not enforce the
flag invariants.  An LLM JSON with all four flags `false` yields a result
with no flag set (violating "at least one flag is true"), and one with
`is_both` and `is_ambiguous` both `true` yields a result violating the
exclusivity rule. -/
theorem claim4_counterexample :
    ((detectQueryIntent true
        (fun _ => some (.obj [("is_animal", .bool false), ("is_plant", .bool false),
          ("is_both", .bool false), ("is_ambiguous", .bool false)]))
        (.response "x")).isAnimal
      || (detectQueryIntent true
        (fun _ => some (.obj [("is_animal", .bool false), ("is_plant", .bool false),
          ("is_both", .bool false), ("is_ambiguous", .bool false)]))
        (.response "x")).isPlant
      || (detectQueryIntent true
        (fun _ => some (.obj [("is_animal", .bool false), ("is_plant", .bool false),
          ("is_both", .bool false), ("is_ambiguous", .bool false)]))
        (.response "x")).isBoth
      || (detectQueryIntent true
        (fun _ => some (.obj [("is_animal", .bool false), ("is_plant", .bool false),
          ("is_both", .bool false), ("is_ambiguous", .bool false)]))
        (.response "x")).isAmbiguous) = false
    ∧ ((detectQueryIntent true
        (fun _ => some (.obj [("is_animal", .bool false), ("is_plant", .bool false),
          ("is_both", .bool true), ("is_ambiguous", .bool true)]))
        (.response "x")).isBoth
      && (detectQueryIntent true
        (fun _ => some (.obj [("is_animal", .bool false), ("is_plant", .bool false),
          ("is_both", .bool true), ("is_ambiguous", .bool true)]))
        (.response "x")).isAmbiguous) = true := by
  refine ⟨by decide, by decide⟩

/-- C4 (amended): the flag invariants hold for the ambiguous fallback result
(which every fallback path returns), but a successfully parsed and validated
LLM JSON object is reproduced verbatim — the four flags are exactly the
truthiness-coerced values of its four keys, with no invariant enforced. -/
theorem claim4_intent_flags
    (jsonLoads : String → Option PyJson) (raw : String) (fs : List (String × PyJson))
    (hraw : ¬ pyStrip raw = "")
    (hjl : jsonLoads (cleanedResponse raw) = some (.obj fs))
    (hkeys : requiredKeys.all (fun k => fs.any (fun p => p.1 == k)) = true) :
    detectQueryIntent true jsonLoads (.response raw)
      = { isAnimal := pyTruthy ((dictLookupJson fs "is_animal").getD (.bool false)),
          isPlant := pyTruthy ((dictLookupJson fs "is_plant").getD (.bool false)),
          isBoth := pyTruthy ((dictLookupJson fs "is_both").getD (.bool false)),
          isAmbiguous := pyTruthy ((dictLookupJson fs "is_ambiguous").getD (.bool false)) }
    ∧ ((fallbackIntent.isBoth && fallbackIntent.isAmbiguous) = false
       ∧ (fallbackIntent.isAnimal || fallbackIntent.isPlant || fallbackIntent.isBoth
          || fallbackIntent.isAmbiguous) = true) := by
  constructor
  · unfold cleanedResponse at hjl
    unfold detectQueryIntent
    simp [hraw, hjl, allKeysIn_obj, hkeys]
  · exact ⟨rfl, rfl⟩

/-- C4 witness: a concrete validated LLM object is reproduced verbatim. -/
theorem claim4_witness :
    detectQueryIntent true
      (fun _ => some (.obj [("is_animal", .bool true), ("is_plant", .bool false),
        ("is_both", .bool false), ("is_ambiguous", .bool false)])) (.response "x")
      = { isAnimal := pyTruthy ((dictLookupJson [("is_animal", PyJson.bool true),
            ("is_plant", PyJson.bool false), ("is_both", PyJson.bool false),
            ("is_ambiguous", PyJson.bool false)] "is_animal").getD (.bool false)),
          isPlant := pyTruthy ((dictLookupJson [("is_animal", PyJson.bool true),
            ("is_plant", PyJson.bool false), ("is_both", PyJson.bool false),
            ("is_ambiguous", PyJson.bool false)] "is_plant").getD (.bool false)),
          isBoth := pyTruthy ((dictLookupJson [("is_animal", PyJson.bool true),
            ("is_plant", PyJson.bool false), ("is_both", PyJson.bool false),
            ("is_ambiguous", PyJson.bool false)] "is_both").getD (.bool false)),
          isAmbiguous := pyTruthy ((dictLookupJson [("is_animal", PyJson.bool true),
            ("is_plant", PyJson.bool false), ("is_both", PyJson.bool false),
            ("is_ambiguous", PyJson.bool false)] "is_ambiguous").getD (.bool false)) }
    ∧ ((fallbackIntent.isBoth && fallbackIntent.isAmbiguous) = false
       ∧ (fallbackIntent.isAnimal || fallbackIntent.isPlant || fallbackIntent.isBoth
          || fallbackIntent.isAmbiguous) = true) :=
  claim4_intent_flags
    (fun _ => some (.obj [("is_animal", .bool true), ("is_plant", .bool false),
      ("is_both", .bool false), ("is_ambiguous", .bool false)])) "x"
    [("is_animal", .bool true), ("is_plant", .bool false), ("is_both", .bool false),
     ("is_ambiguous", .bool false)] (by decide) rfl (by decide)

/-- C9: the ID sanitization maps `"Mentha × piperita"` to
`"mentha_x_piperita"`, `"Caféier arabica"` to `"cafeier_arabica"`, and the
empty string to `"unknown"`, for any NFKD normalization that fixes ASCII
strings (which unicodedata's NFKD does). -/
theorem claim9_sanitize_examples
    (nfkd : String → String)
    (hascii : ∀ s : String, s.data.all (fun c => c.toNat < 128) = true → nfkd s = s) :
    sanitizePlantId nfkd "Mentha × piperita" = "mentha_x_piperita"
    ∧ sanitizePlantId nfkd "Caféier arabica" = "cafeier_arabica"
    ∧ sanitizePlantId nfkd "" = "unknown" := by
  have h1 : (⟨applyReplacements (pyLower "Mentha × piperita").data⟩ : String)
      = "mentha x piperita" := by decide
  have h2 : (⟨applyReplacements (pyLower "Caféier arabica").data⟩ : String)
      = "cafeier arabica" := by decide
  refine ⟨?_, ?_, by rfl⟩
  · unfold sanitizePlantId sanitizeCore
    rw [h1, hascii "mentha x piperita" (by decide)]
    decide
  · unfold sanitizePlantId sanitizeCore
    rw [h2, hascii "cafeier arabica" (by decide)]
    decide

/-- C9 witness: the identity function is NFKD on ASCII inputs. -/
theorem claim9_witness :
    sanitizePlantId id "Mentha × piperita" = "mentha_x_piperita"
    ∧ sanitizePlantId id "Caféier arabica" = "cafeier_arabica"
    ∧ sanitizePlantId id "" = "unknown" :=
  claim9_sanitize_examples id (fun _ _ => rfl)

theorem stableInsertBy_perm {α : Type} (lt : α → α → Bool) (x : α) (ys : List α) :
    (stableInsertBy lt x ys).Perm (x :: ys) := by
  induction ys with
  | nil => simp [stableInsertBy]
  | cons y ys ih =>
    simp only [stableInsertBy]
    by_cases h : lt y x = true
    · rw [if_pos h]
      exact (ih.cons y).trans (List.Perm.swap x y ys)
    · rw [if_neg h]

theorem stableSortBy_perm {α : Type} (lt : α → α → Bool) (xs : List α) :
    (stableSortBy lt xs).Perm xs := by
  induction xs with
  | nil => exact List.Perm.nil.symm
  | cons x xs ih =>
    simp only [stableSortBy, List.foldr_cons] at *
    exact (stableInsertBy_perm lt x _).trans (ih.cons x)

theorem sortByKeyAsc_perm {α : Type} (k : α → Int) (xs : List α) :
    (sortByKeyAsc k xs).Perm xs := stableSortBy_perm _ xs

theorem sortByKeyDesc_perm {α : Type} (k : α → Int) (xs : List α) :
    (sortByKeyDesc k xs).Perm xs := stableSortBy_perm _ xs

theorem stableInsertBy_pairwise_le {α : Type} (k : α → Int) (x : α) (ys : List α)
    (hys : ys.Pairwise (fun a b => k a ≤ k b)) :
    (stableInsertBy (fun a b => decide (k a < k b)) x ys).Pairwise
      (fun a b => k a ≤ k b) := by
  induction ys with
  | nil => simp [stableInsertBy]
  | cons y ys ih =>
    simp only [stableInsertBy]
    rcases List.pairwise_cons.mp hys with ⟨hy, hys2⟩
    by_cases h : decide (k y < k x) = true
    · rw [if_pos h]
      have hlt : k y < k x := of_decide_eq_true h
      refine List.pairwise_cons.mpr ⟨?_, ih hys2⟩
      intro z hz
      have hz2 : z ∈ x :: ys := (stableInsertBy_perm _ x ys).mem_iff.mp hz
      rcases List.mem_cons.mp hz2 with rfl | hz3
      · exact le_of_lt hlt
      · exact hy z hz3
    · rw [if_neg h]
      have hle : k x ≤ k y := by
        have h2 : ¬ (k y < k x) := by simpa using h
        omega
      refine List.pairwise_cons.mpr ⟨?_, hys⟩
      intro z hz
      rcases List.mem_cons.mp hz with rfl | hz3
      · exact hle
      · exact le_trans hle (hy z hz3)

theorem sortByKeyAsc_pairwise {α : Type} (k : α → Int) (xs : List α) :
    (sortByKeyAsc k xs).Pairwise (fun a b => k a ≤ k b) := by
  unfold sortByKeyAsc
  induction xs with
  | nil => simp [stableSortBy]
  | cons x xs ih =>
    simp only [stableSortBy, List.foldr_cons] at *
    exact stableInsertBy_pairwise_le k x _ ih

theorem sortByKeyAsc_isEmpty {α : Type} (k : α → Int) (xs : List α) :
    (sortByKeyAsc k xs).isEmpty = xs.isEmpty := by
  cases xs with
  | nil => rfl
  | cons x xs =>
    have hp := (sortByKeyAsc_perm k (x :: xs)).length_eq
    obtain ⟨y, ys, hy⟩ : ∃ y ys, sortByKeyAsc k (x :: xs) = y :: ys := by
      cases hs : sortByKeyAsc k (x :: xs) with
      | nil => rw [hs] at hp; simp at hp
      | cons y ys => exact ⟨y, ys, rfl⟩
    rw [hy]
    rfl

theorem groupInsert_lookup_self (gs : List (String × List RChunk)) (n : String)
    (c : RChunk) :
    groupLookup (groupInsert n c gs) n = groupLookup gs n ++ [c] := by
  induction gs with
  | nil =>
    simp [groupInsert, groupLookup]
  | cons p rest ih =>
    obtain ⟨k, cs⟩ := p
    by_cases h : (k == n) = true
    · simp only [groupInsert]
      rw [if_pos h]
      unfold groupLookup
      rw [List.find?_cons_of_pos _ (by simpa using h),
        List.find?_cons_of_pos _ (by simpa using h)]
      rfl
    · simp only [groupInsert]
      rw [if_neg h]
      unfold groupLookup at ih ⊢
      rw [List.find?_cons_of_neg _ (by simpa using h),
        List.find?_cons_of_neg _ (by simpa using h)]
      exact ih

theorem groupInsert_lookup_ne (gs : List (String × List RChunk)) (n : String) (c : RChunk)
    (m : String) (hne : ¬ n = m) :
    groupLookup (groupInsert n c gs) m = groupLookup gs m := by
  induction gs with
  | nil =>
    unfold groupInsert groupLookup
    rw [List.find?_cons_of_neg _ (by simpa using hne)]
  | cons p rest ih =>
    obtain ⟨k, cs⟩ := p
    by_cases h : (k == n) = true
    · have hk : k = n := by simpa using h
      subst hk
      simp only [groupInsert]
      rw [if_pos (by simp)]
      unfold groupLookup
      rw [List.find?_cons_of_neg _ (by simpa using hne),
        List.find?_cons_of_neg _ (by simpa using hne)]
    · simp only [groupInsert]
      rw [if_neg h]
      unfold groupLookup at ih ⊢
      by_cases h2 : (k == m) = true
      · rw [List.find?_cons_of_pos _ (by simpa using h2),
          List.find?_cons_of_pos _ (by simpa using h2)]
      · rw [List.find?_cons_of_neg _ (by simpa using h2),
          List.find?_cons_of_neg _ (by simpa using h2)]
        exact ih

theorem mem_keysOf_groupInsert {gs : List (String × List RChunk)} {n : String}
    {c : RChunk} {m : String} (h : m ∈ keysOfGroups (groupInsert n c gs)) :
    m ∈ keysOfGroups gs ∨ m = n := by
  induction gs with
  | nil =>
    simp [groupInsert, keysOfGroups] at h
    exact Or.inr h
  | cons p rest ih =>
    obtain ⟨k, cs⟩ := p
    by_cases hk : (k == n) = true
    · simp only [groupInsert] at h
      rw [if_pos hk] at h
      have hkn : k = n := by simpa using hk
      simp only [keysOfGroups, List.map_cons, List.mem_cons] at h ⊢
      rcases h with rfl | h2
      · exact Or.inl (Or.inl rfl)
      · exact Or.inl (Or.inr h2)
    · simp only [groupInsert] at h
      rw [if_neg hk] at h
      simp only [keysOfGroups, List.map_cons, List.mem_cons] at h ⊢
      rcases h with rfl | h2
      · exact Or.inl (Or.inl rfl)
      · rcases ih h2 with h3 | h3
        · exact Or.inl (Or.inr h3)
        · exact Or.inr h3

theorem nodup_keysOf_groupInsert {gs : List (String × List RChunk)} {n : String}
    {c : RChunk} (h : (keysOfGroups gs).Nodup) :
    (keysOfGroups (groupInsert n c gs)).Nodup := by
  induction gs with
  | nil => simp [groupInsert, keysOfGroups]
  | cons p rest ih =>
    obtain ⟨k, cs⟩ := p
    simp only [keysOfGroups, List.map_cons, List.nodup_cons] at h
    by_cases hk : (k == n) = true
    · simp only [groupInsert]
      rw [if_pos hk]
      simp only [keysOfGroups, List.map_cons, List.nodup_cons]
      exact h
    · simp only [groupInsert]
      rw [if_neg hk]
      simp only [keysOfGroups, List.map_cons, List.nodup_cons]
      refine ⟨?_, ih h.2⟩
      intro hmem
      rcases mem_keysOf_groupInsert hmem with h3 | h3
      · exact h.1 h3
      · exact absurd (by simp [h3]) hk

theorem mem_groupInsert {gs : List (String × List RChunk)} {n : String} {c : RChunk}
    {p : String × List RChunk} (h : p ∈ groupInsert n c gs) :
    p.1 ∈ keysOfGroups gs ∨ p.1 = n := by
  have : p.1 ∈ keysOfGroups (groupInsert n c gs) := List.mem_map_of_mem Prod.fst h
  exact mem_keysOf_groupInsert this

theorem entry_eq_groupLookup {gs : List (String × List RChunk)}
    (hnd : (keysOfGroups gs).Nodup) {p : String × List RChunk} (hp : p ∈ gs) :
    p.2 = groupLookup gs p.1 := by
  induction gs with
  | nil => simp at hp
  | cons q rest ih =>
    obtain ⟨k, cs⟩ := q
    simp only [keysOfGroups, List.map_cons, List.nodup_cons] at hnd
    rcases List.mem_cons.mp hp with rfl | h2
    · unfold groupLookup
      rw [List.find?_cons_of_pos _ (by simp)]
      rfl
    · have hkp : ¬ k = p.1 := by
        intro hk
        exact hnd.1 (hk ▸ List.mem_map_of_mem Prod.fst h2)
      unfold groupLookup at ih ⊢
      rw [List.find?_cons_of_neg _ (by simpa using hkp)]
      exact ih hnd.2 h2

theorem groupFold_lookup (ms : List PMatch) :
    ∀ (acc : List (String × List RChunk)) (n : String), ¬ n = "" →
      groupLookup
        (ms.foldl (fun gs m =>
          if m.metadata.scientificName == "" then gs
          else groupInsert m.metadata.scientificName (matchToRChunk m) gs) acc) n
      = groupLookup acc n ++ groupSpec ms n := by
  induction ms with
  | nil =>
    intro acc n hn
    simp [groupSpec]
  | cons m ms ih =>
    intro acc n hn
    simp only [List.foldl_cons]
    by_cases hname : (m.metadata.scientificName == "") = true
    · rw [if_pos hname]
      rw [ih acc n hn]
      have hmn : (m.metadata.scientificName == n) = false := by
        have h4 : m.metadata.scientificName = "" := by simpa using hname
        rw [h4]
        simp only [beq_eq_false_iff_ne]
        exact fun h5 => hn h5.symm
      unfold groupSpec
      simp [hmn]
    · rw [if_neg hname]
      rw [ih _ n hn]
      by_cases heq : (m.metadata.scientificName == n) = true
      · have hmn : m.metadata.scientificName = n := by simpa using heq
        rw [hmn, groupInsert_lookup_self]
        unfold groupSpec
        simp [heq, hmn, List.append_assoc]
      · have hne : ¬ m.metadata.scientificName = n := by simpa using heq
        rw [groupInsert_lookup_ne _ _ _ _ hne]
        unfold groupSpec
        simp [heq]

theorem groupFold_keys (ms : List PMatch) :
    ∀ (acc : List (String × List RChunk)),
      (∀ p ∈ acc, ¬ p.1 = "") → (keysOfGroups acc).Nodup →
      (∀ p ∈ ms.foldl (fun gs m =>
          if m.metadata.scientificName == "" then gs
          else groupInsert m.metadata.scientificName (matchToRChunk m) gs) acc,
         ¬ p.1 = "")
      ∧ (keysOfGroups
          (ms.foldl (fun gs m =>
            if m.metadata.scientificName == "" then gs
            else groupInsert m.metadata.scientificName (matchToRChunk m) gs) acc)).Nodup := by
  induction ms with
  | nil => intro acc h1 h2; exact ⟨h1, h2⟩
  | cons m ms ih =>
    intro acc h1 h2
    simp only [List.foldl_cons]
    by_cases hname : (m.metadata.scientificName == "") = true
    · rw [if_pos hname]
      exact ih acc h1 h2
    · rw [if_neg hname]
      refine ih _ ?_ (nodup_keysOf_groupInsert h2)
      intro p hp
      rcases mem_groupInsert hp with h3 | h3
      · obtain ⟨q, hq, hq2⟩ := List.mem_map.mp h3
        intro habs
        exact h1 q hq (by rw [hq2, habs])
      · intro habs
        apply hname
        have h4 : m.metadata.scientificName = "" := by rw [← h3, habs]
        simp [h4]

theorem groupMatches_entry (ms : List PMatch) :
    ∀ p ∈ groupMatches ms, ¬ p.1 = "" ∧ p.2 = groupSpec ms p.1 := by
  intro p hp
  have hkeys := groupFold_keys ms [] (by simp) (by simp [keysOfGroups])
  have hne := hkeys.1 p hp
  refine ⟨hne, ?_⟩
  have h2 := entry_eq_groupLookup hkeys.2 hp
  rw [h2]
  have h3 := groupFold_lookup ms [] p.1 hne
  simpa [groupLookup, groupMatches] using h3

theorem mkPlantInfo_allChunks (n : String) (cs : List RChunk) :
    (mkPlantInfo n cs).allChunks = sortByKeyDesc RChunk.score cs := by
  unfold mkPlantInfo
  cases h : sortByKeyDesc RChunk.score cs with
  | nil => simp
  | cons best rest => simp

theorem mkPlantInfo_sciName (n : String) (cs : List RChunk) :
    (mkPlantInfo n cs).scientificName = n := by
  unfold mkPlantInfo
  cases h : sortByKeyDesc RChunk.score cs with
  | nil => simp
  | cons best rest => simp

theorem detailsParts_eq (cs : List RChunk) :
    (if cs.isEmpty then []
     else if (contentOf cs).isEmpty then []
     else ["Details: " ++ joinWith " "
             ((sortByKeyAsc RChunk.chunkIndex (contentOf cs)).map RChunk.chunkText)])
    = specDetailsParts cs := by
  unfold specDetailsParts
  rw [sortByKeyAsc_isEmpty]
  by_cases h : cs.isEmpty = true
  · have hc : cs = [] := by
      cases cs with
      | nil => rfl
      | cons x xs => simp [List.isEmpty] at h
    subst hc
    simp [contentOf]
  · rw [if_neg h]

theorem plantBlockParts_eq (i : Nat) (r : PlantInfo) :
    plantBlockParts i r
      = specBasicParts i r ++ specDetailsParts r.allChunks ++ specSourceParts r := by
  unfold plantBlockParts specBasicParts specSourceParts
  rw [detailsParts_eq]

theorem enumIdx_get?_infix (f : Nat × PlantInfo → List String) :
    ∀ (l : List PlantInfo) (j i : Nat) (r : PlantInfo), l.get? i = some r →
    ∃ pre post, (enumIdx j l).flatMap f = pre ++ f (j + i, r) ++ post := by
  intro l
  induction l with
  | nil => intro j i r h; simp at h
  | cons x xs ih =>
    intro j i r h
    cases i with
    | zero =>
      obtain rfl : x = r := by simpa using h
      exact ⟨[], (enumIdx (j + 1) xs).flatMap f, by simp [enumIdx]⟩
    | succ i2 =>
      have h2 : xs.get? i2 = some r := by simpa using h
      obtain ⟨pre, post, hpp⟩ := ih (j + 1) i2 r h2
      refine ⟨f (j, x) ++ pre, post, ?_⟩
      have harith : j + 1 + i2 = j + (i2 + 1) := by omega
      simp only [enumIdx, List.flatMap_cons, hpp, harith, List.append_assoc]

/-- C2: for every match list and every species result `r` that appears among
the first `top_k` formatted results, the emitted context bundle contains
that species' block; the block is the basic-info lines (header, taxonomy,
summary) followed by the details line and then the source line; the details
line is built from the sorted content chunks, which are a permutation of
exactly the returned content chunks of `r`, in `chunk_index` ascending
order; and `r`'s chunks are exactly the matches carrying its scientific
name.  Texts of content chunks that were not returned therefore do not
enter the block. -/
theorem claim2_retrieval_reconstruction
    (ms : List PMatch) (topK i : Nat) (r : PlantInfo)
    (hr : ((formatPlantResults ms).take topK).get? i = some r) :
    (∃ pre post, getRagContextParts ms topK = pre ++ plantBlockParts (1 + i) r ++ post)
    ∧ getRagContext ms topK = joinWith "\n" (getRagContextParts ms topK)
    ∧ plantBlockParts (1 + i) r
        = specBasicParts (1 + i) r ++ specDetailsParts r.allChunks ++ specSourceParts r
    ∧ (sortByKeyAsc RChunk.chunkIndex (contentOf r.allChunks)).Perm (contentOf r.allChunks)
    ∧ (sortByKeyAsc RChunk.chunkIndex (contentOf r.allChunks)).Pairwise
        (fun a b => a.chunkIndex ≤ b.chunkIndex)
    ∧ r.allChunks.Perm
        ((ms.filter (fun m => m.metadata.scientificName == r.scientificName)).map
          matchToRChunk) := by
  have hmem : r ∈ formatPlantResults ms :=
    List.take_subset topK _ (List.get?_mem hr)
  refine ⟨?_, ?_, plantBlockParts_eq _ _, sortByKeyAsc_perm _ _,
    sortByKeyAsc_pairwise _ _, ?_⟩
  · obtain ⟨pre, post, hpp⟩ :=
      enumIdx_get?_infix (fun p => plantBlockParts p.1 p.2)
        ((formatPlantResults ms).take topK) 1 i r hr
    refine ⟨"Relevant Plant Information:" :: pre,
      post ++ ["\n=== END OF PLANT INFORMATION ===\n"], ?_⟩
    unfold getRagContextParts
    rw [hpp]
    simp [List.append_assoc]
  · unfold getRagContext
    rw [if_neg (by simpa using List.ne_nil_of_mem hmem)]
  · obtain ⟨p0, hin, heq⟩ := List.mem_map.mp hmem
    obtain ⟨n, cs⟩ := p0
    have hentry := groupMatches_entry ms (n, cs) hin
    have heq2 : mkPlantInfo n cs = r := heq
    subst heq2
    rw [mkPlantInfo_allChunks, mkPlantInfo_sciName]
    have h2 : cs = (ms.filter
        (fun m => m.metadata.scientificName == n)).map matchToRChunk := by
      have := hentry.2
      simpa [groupSpec] using this
    rw [← h2]
    exact sortByKeyDesc_perm RChunk.score cs

/-- C2 witness: scenario S6 — a basic chunk plus content chunk 2 only. -/
theorem claim2_witness :
    (∃ pre post, getRagContextParts msW 3 = pre ++ plantBlockParts (1 + 0) rW ++ post)
    ∧ getRagContext msW 3 = joinWith "\n" (getRagContextParts msW 3)
    ∧ plantBlockParts (1 + 0) rW
        = specBasicParts (1 + 0) rW ++ specDetailsParts rW.allChunks ++ specSourceParts rW
    ∧ (sortByKeyAsc RChunk.chunkIndex (contentOf rW.allChunks)).Perm
        (contentOf rW.allChunks)
    ∧ (sortByKeyAsc RChunk.chunkIndex (contentOf rW.allChunks)).Pairwise
        (fun a b => a.chunkIndex ≤ b.chunkIndex)
    ∧ rW.allChunks.Perm
        ((msW.filter (fun m => m.metadata.scientificName == rW.scientificName)).map
          matchToRChunk) :=
  claim2_retrieval_reconstruction msW 3 0 rW (by decide)
